import Mathlib

/-!
# Verification of the IndexedDB crypto-store migration engine

Shallow embedding of `crates/matrix-sdk-indexeddb/src/crypto_store/migrations.rs`:
the versioned migration engine that takes an IndexedDB-backed crypto store at an
unknown prior schema version and brings it to version 8, performing structural
schema steps (versions 1 to 6, then 7 and 8) and two asynchronous data phases
(the data migrator `prepare_data_for_v7` and the key fixup pass
`prepare_data_for_v8`).

The IndexedDB engine itself (versioned open, object stores, add/put/delete,
cursors) and the codec (`IndexeddbSerializer`) are external collaborators of the
file under study; they are modelled here from their interface behaviour.  An
object store is an association list from physical keys (strings) to stored
values; a database is a version number plus an association list of named object
stores.  Cursors iterate over the snapshot of keys present when the scan starts;
a record that is no longer present when its key comes up is skipped, matching
live-cursor behaviour (the loops below only ever delete the record under the key
being visited, and only ever insert records at their canonical key, so visiting
a freshly inserted record is a no-op of the scan).
-/

/-- A domain session record in its pickled (storable) form.  Modelled from the
spec: the domain entity has a container identifier (room id), an item
identifier (session id) and a boolean backed-up flag; the payload blob carries
no information relevant to migration and is omitted. -/
structure PickledInboundGroupSession where
  room_id : String
  session_id : String
  backed_up : Bool
deriving DecidableEq

/-- The in-memory domain entity (`matrix_sdk_crypto::olm::InboundGroupSession`). -/
structure InboundGroupSession where
  room_id : String
  session_id : String
  backed_up : Bool
deriving DecidableEq

/-- `InboundGroupSession::from_pickle`.  Unpickling is fallible in the source;
in this model the pickle is already structured, so the fallibility of the
decode pipeline lives in the serializer stages. -/
def InboundGroupSession.from_pickle (p : PickledInboundGroupSession) :
    Except String InboundGroupSession :=
  .ok { room_id := p.room_id, session_id := p.session_id, backed_up := p.backed_up }

/-- `InboundGroupSession::pickle`. -/
def InboundGroupSession.pickle (s : InboundGroupSession) : PickledInboundGroupSession :=
  { room_id := s.room_id, session_id := s.session_id, backed_up := s.backed_up }

/-- Encrypted byte strings produced by `serialize_value_as_bytes`.  The byte
level structure is irrelevant to the migration logic; what matters is that the
serializer can decode what it encoded, and that arbitrary stored bytes may fail
to decode.  We model a byte string as an optional pickle. -/
abbrev Bytes := Option PickledInboundGroupSession

/-- The value stored in the new-format inbound group session table
(`InboundGroupSessionIndexedDbObject`): an (encrypted) pickled payload plus a
boolean `needs_backup` flag indexed by the backup index. -/
structure InboundGroupSessionIndexedDbObject where
  pickled_session : Bytes
  needs_backup : Bool
deriving DecidableEq

/-- A JavaScript value as stored in an object store: either an opaque legacy
blob (the pre-v7 serialized pickled session) or a structured
`InboundGroupSessionIndexedDbObject`. -/
inductive JsValue where
  | legacyBlob : Option PickledInboundGroupSession → JsValue
  | v2obj : InboundGroupSessionIndexedDbObject → JsValue
deriving DecidableEq

/-- `serde_wasm_bindgen::from_value::<InboundGroupSessionIndexedDbObject>`:
fails unless the stored value actually is a new-format object. -/
def serdeFromValue : JsValue → Except String InboundGroupSessionIndexedDbObject
  | .v2obj o => .ok o
  | .legacyBlob _ => .error "serde_wasm_bindgen deserialization error"

/-- `serde_wasm_bindgen::to_value`. -/
def serdeToValue (o : InboundGroupSessionIndexedDbObject) : JsValue :=
  .v2obj o

/-- Modelled from the spec: the codec collaborator (`IndexeddbSerializer`,
whose implementation is not among the provided sources).  `encode_key` is the
deterministic canonical-key function over (table name, logical key); the
value codecs are arbitrary fallible decoders paired with their encoders, with
the round-trip laws the spec states for the codec capability. -/
structure IndexeddbSerializer where
  encode_key : String → String × String → String
  serialize_value : PickledInboundGroupSession → JsValue
  deserialize_value : JsValue → Except String PickledInboundGroupSession
  serialize_value_as_bytes : PickledInboundGroupSession → Bytes
  deserialize_value_from_bytes : Bytes → Except String PickledInboundGroupSession
  round_trip_value : ∀ p, deserialize_value (serialize_value p) = .ok p
  round_trip_bytes : ∀ p, deserialize_value_from_bytes (serialize_value_as_bytes p) = .ok p

/-! ## Object stores as association lists -/

/-- Record lookup by physical key (IndexedDB `get`). -/
def tableGet {α : Type} : List (String × α) → String → Option α
  | [], _ => none
  | (k, v) :: t, q => if k = q then some v else tableGet t q

/-- IndexedDB `put`: replace the record under the key, or append a fresh one. -/
def tablePut {α : Type} : List (String × α) → String → α → List (String × α)
  | [], q, v => [(q, v)]
  | (k, w) :: t, q, v => if k = q then (q, v) :: t else (k, w) :: tablePut t q v

/-- IndexedDB record deletion (also used for `cursor.delete()`). -/
def tableDelete {α : Type} : List (String × α) → String → List (String × α)
  | [], _ => []
  | (k, w) :: t, q => if k = q then tableDelete t q else (k, w) :: tableDelete t q

/-- IndexedDB `add`: like `put` but the transaction fails with a
`ConstraintError` if a record already exists under the key. -/
def tableAdd {α : Type} (t : List (String × α)) (q : String) (v : α) :
    Except String (List (String × α)) :=
  match tableGet t q with
  | some _ => .error "ConstraintError"
  | none => .ok (t ++ [(q, v)])

theorem tableGet_delete {α : Type} (t : List (String × α)) (k q : String) :
    tableGet (tableDelete t k) q = if q = k then none else tableGet t q := by
  induction t with
  | nil => simp [tableGet, tableDelete]
  | cons hd tl ih =>
    obtain ⟨a, b⟩ := hd
    simp only [tableDelete]
    rcases eq_or_ne a k with rfl | hak
    · rw [if_pos rfl, ih]
      rcases eq_or_ne q a with rfl | hq
      · simp
      · rw [if_neg hq, if_neg hq]
        simp only [tableGet]
        rw [if_neg (fun h => hq h.symm)]
    · rw [if_neg hak]
      simp only [tableGet]
      rcases eq_or_ne a q with rfl | haq
      · simp [hak]
      · rw [if_neg haq, if_neg haq, ih]

theorem tableGet_put {α : Type} (t : List (String × α)) (k : String) (v : α) (q : String) :
    tableGet (tablePut t k v) q = if q = k then some v else tableGet t q := by
  induction t with
  | nil =>
    simp only [tablePut, tableGet]
    rcases eq_or_ne q k with rfl | hqk
    · simp
    · rw [if_neg (fun h => hqk h.symm), if_neg hqk]
  | cons hd tl ih =>
    obtain ⟨a, b⟩ := hd
    simp only [tablePut]
    rcases eq_or_ne a k with rfl | hak
    · rw [if_pos rfl]
      simp only [tableGet]
      rcases eq_or_ne q a with rfl | hq
      · rw [if_pos rfl, if_pos rfl]
      · rw [if_neg (fun h => hq h.symm), if_neg hq, if_neg (fun h => hq h.symm)]
    · rw [if_neg hak]
      simp only [tableGet]
      rcases eq_or_ne a q with rfl | haq
      · simp [hak]
      · rw [if_neg haq, if_neg haq, ih]

theorem tableGet_append {α : Type} (t₁ t₂ : List (String × α)) (q : String) :
    tableGet (t₁ ++ t₂) q =
      match tableGet t₁ q with
      | some v => some v
      | none => tableGet t₂ q := by
  induction t₁ with
  | nil => simp [tableGet]
  | cons hd tl ih =>
    obtain ⟨a, b⟩ := hd
    by_cases haq : a = q <;> simp [tableGet, haq, ih]

theorem tablePut_self {α : Type} (t : List (String × α)) (k : String) (v : α)
    (h : tableGet t k = some v) : tablePut t k v = t := by
  induction t with
  | nil => simp [tableGet] at h
  | cons hd tl ih =>
    obtain ⟨a, b⟩ := hd
    by_cases hak : a = k
    · subst hak
      simp [tableGet] at h
      simp [tablePut, h]
    · simp [tableGet, hak] at h
      simp [tablePut, hak, ih h]

theorem tableGet_isEmpty_false {α : Type} (t : List (String × α)) (k : String) (v : α)
    (h : tableGet t k = some v) : t.isEmpty = false := by
  cases t with
  | nil => simp [tableGet] at h
  | cons hd tl => simp [List.isEmpty]

theorem tableGet_any {α : Type} (t : List (String × α)) (k : String) (v : α)
    (h : tableGet t k = some v) : t.any (fun p => p.1 == k) = true := by
  induction t with
  | nil => simp [tableGet] at h
  | cons hd tl ih =>
    obtain ⟨a, b⟩ := hd
    by_cases hak : a = k
    · simp [List.any, hak]
    · simp [tableGet, hak] at h
      simp [List.any, ih h]

/-! ## Store and index names

Modelled from the spec: the `keys` module of the crypto store is not among the
provided sources; the concrete strings only need to be pairwise distinct.  The
names of the two inbound-group-session tables are fixed by the provided source
(`old_keys::INBOUND_GROUP_SESSIONS_V1 = "inbound_group_sessions"` and the
comment naming `inbound_group_sessions2`). -/

namespace keys

def CORE : String := "core"

def SESSION : String := "session"

def OUTBOUND_GROUP_SESSIONS : String := "outbound_group_sessions"

def TRACKED_USERS : String := "tracked_users"

def OLM_HASHES : String := "olm_hashes"

def DEVICES : String := "devices"

def IDENTITIES : String := "identities"

def BACKUP_KEYS : String := "backup_keys"

def ROOM_SETTINGS : String := "room_settings"

def DIRECT_WITHHELD_INFO : String := "direct_withheld_info"

def SECRETS_INBOX : String := "secrets_inbox"

def GOSSIP_REQUESTS : String := "gossip_requests"

def GOSSIP_REQUESTS_UNSENT_INDEX : String := "gossip_requests_unsent"

def GOSSIP_REQUESTS_BY_INFO_INDEX : String := "gossip_requests_by_info"

def INBOUND_GROUP_SESSIONS_V2 : String := "inbound_group_sessions2"

def INBOUND_GROUP_SESSIONS_BACKUP_INDEX : String := "backup"

end keys

namespace old_keys

/-- Old format of the inbound_group_sessions store which lacked indexes or a
sensible structure. -/
def INBOUND_GROUP_SESSIONS_V1 : String := "inbound_group_sessions"

end old_keys

/-! ## The IndexedDB engine model -/

/-- A secondary index: name, key path into the stored value, uniqueness flag. -/
structure Index where
  name : String
  keyPath : String
  unique : Bool
deriving DecidableEq

/-- An object store: records keyed by physical key, plus its secondary
indexes. -/
structure ObjectStore where
  records : List (String × JsValue)
  indexes : List Index
deriving DecidableEq

/-- A named database: persisted version counter plus the object-store
catalog. -/
structure Database where
  version : Nat
  stores : List (String × ObjectStore)
deriving DecidableEq

/-- `IdbDatabase::create_object_store`: fails with a `ConstraintError` if a
store of that name already exists. -/
def Database.createObjectStore (db : Database) (name : String) : Except String Database :=
  match tableGet db.stores name with
  | some _ => .error "ConstraintError"
  | none => .ok { db with stores := db.stores ++ [(name, { records := [], indexes := [] })] }

/-- `IdbDatabase::delete_object_store`: fails with a `NotFoundError` if no
store of that name exists. -/
def Database.deleteObjectStore (db : Database) (name : String) : Except String Database :=
  match tableGet db.stores name with
  | none => .error "NotFoundError"
  | some _ => .ok { db with stores := tableDelete db.stores name }

/-- `IdbObjectStore::create_index_with_params` on the named store. -/
def Database.createIndex (db : Database) (store idxName keyPath : String) (unique : Bool) :
    Except String Database :=
  match tableGet db.stores store with
  | none => .error "InvalidStateError"
  | some s =>
    if s.indexes.any (fun i => i.name == idxName) then .error "ConstraintError"
    else
      .ok { db with
            stores := tablePut db.stores store
              { s with indexes := s.indexes ++ [{ name := idxName, keyPath := keyPath, unique := unique }] } }

/-- The records of the named object store, if it exists. -/
def Database.getRecords (db : Database) (name : String) : Option (List (String × JsValue)) :=
  (tableGet db.stores name).map ObjectStore.records

/-- Replace the records of the named object store (keeping its indexes). -/
def Database.setRecords (db : Database) (name : String) (t : List (String × JsValue)) : Database :=
  match tableGet db.stores name with
  | none => db
  | some s => { db with stores := tablePut db.stores name { s with records := t } }

/-! ## Schema steps (versions 1 to 6, and 7) -/

def migrate_stores_to_v1 (db : Database) : Except String Database := do
  let db ← db.createObjectStore keys.CORE
  let db ← db.createObjectStore keys.SESSION
  let db ← db.createObjectStore old_keys.INBOUND_GROUP_SESSIONS_V1
  let db ← db.createObjectStore keys.OUTBOUND_GROUP_SESSIONS
  let db ← db.createObjectStore keys.TRACKED_USERS
  let db ← db.createObjectStore keys.OLM_HASHES
  let db ← db.createObjectStore keys.DEVICES
  let db ← db.createObjectStore keys.IDENTITIES
  db.createObjectStore keys.BACKUP_KEYS

/-- The inbound group session key shape changed from a 3-part tuple to a
2-part tuple, so the whole store is dropped and recreated. -/
def migrate_stores_to_v2 (db : Database) : Except String Database := do
  let db ← db.deleteObjectStore old_keys.INBOUND_GROUP_SESSIONS_V1
  let db ← db.createObjectStore old_keys.INBOUND_GROUP_SESSIONS_V1
  db.createObjectStore keys.ROOM_SETTINGS

/-- The outbound session value shape changed, so the store is dropped and
recreated; a withheld-code store is added. -/
def migrate_stores_to_v3 (db : Database) : Except String Database := do
  let db ← db.deleteObjectStore keys.OUTBOUND_GROUP_SESSIONS
  let db ← db.createObjectStore keys.OUTBOUND_GROUP_SESSIONS
  db.createObjectStore keys.DIRECT_WITHHELD_INFO

def migrate_stores_to_v4 (db : Database) : Except String Database :=
  db.createObjectStore keys.SECRETS_INBOX

/-- Create the gossip-requests store with its two secondary indexes, and drop
the three superseded request stores (the source only probes for the first of
the three names before deleting all three). -/
def migrate_stores_to_v5 (db : Database) : Except String Database := do
  let db ← db.createObjectStore keys.GOSSIP_REQUESTS
  let db ← db.createIndex keys.GOSSIP_REQUESTS keys.GOSSIP_REQUESTS_UNSENT_INDEX "unsent" false
  let db ← db.createIndex keys.GOSSIP_REQUESTS keys.GOSSIP_REQUESTS_BY_INFO_INDEX "info" true
  if db.stores.any (fun p => p.1 == "outgoing_secret_requests") then do
    let db ← db.deleteObjectStore "outgoing_secret_requests"
    let db ← db.deleteObjectStore "unsent_secret_requests"
    db.deleteObjectStore "secret_requests_by_info"
  else
    return db

/-- Create the new-format inbound group session store with its non-unique
backup index; the legacy store is deliberately kept as the source for the
data migrator. -/
def migrate_stores_to_v6 (db : Database) : Except String Database := do
  let db ← db.createObjectStore keys.INBOUND_GROUP_SESSIONS_V2
  db.createIndex keys.INBOUND_GROUP_SESSIONS_V2 keys.INBOUND_GROUP_SESSIONS_BACKUP_INDEX
    "needs_backup" false

/-- Drop the legacy inbound group session store (only run after the data
migrator has drained it). -/
def migrate_stores_to_v7 (db : Database) : Except String Database :=
  db.deleteObjectStore old_keys.INBOUND_GROUP_SESSIONS_V1

/-- One guarded schema step of the phase-1 upgrade callback.  Steps 2 to 6 are
guarded by the `old_version` captured from the upgrade event; step 1 is guarded
by the object-store catalog being empty, because an `old_version` of 1 is
ambiguous between a genuine v1 store and a freshly created empty database. -/
def apply_schema_step (step old_version : Nat) (db : Database) : Except String Database :=
  match step with
  | 1 => if db.stores.isEmpty then migrate_stores_to_v1 db else .ok db
  | 2 => if old_version < 2 then migrate_stores_to_v2 db else .ok db
  | 3 => if old_version < 3 then migrate_stores_to_v3 db else .ok db
  | 4 => if old_version < 4 then migrate_stores_to_v4 db else .ok db
  | 5 => if old_version < 5 then migrate_stores_to_v5 db else .ok db
  | 6 => if old_version < 6 then migrate_stores_to_v6 db else .ok db
  | _ => .ok db

/-- The `upgrade_needed` callback installed by `migrate_schema_up_to_v6`. -/
def upgrade_v6_callback (old_version : Nat) (db : Database) : Except String Database := do
  let db ← apply_schema_step 1 old_version db
  let db ← apply_schema_step 2 old_version db
  let db ← apply_schema_step 3 old_version db
  let db ← apply_schema_step 4 old_version db
  let db ← apply_schema_step 5 old_version db
  apply_schema_step 6 old_version db

/-! ## Versioned opens -/

/-- `IdbDatabase::open` (no explicit version): opens the existing database, or
creates an empty one at version 1. -/
def idb_open (st : Option Database) : Database :=
  match st with
  | none => { version := 1, stores := [] }
  | some db => db

/-- `IdbDatabase::open_u32`: fails with a `VersionError` if the requested
version is below the stored one; runs the upgrade callback (against the stored
`old_version`) and persists the new version if the requested version is above
the stored one; plain open otherwise.  A callback failure aborts the upgrade
transaction, leaving the persisted state unchanged. -/
def idb_open_u32 (db : Database) (v : Nat)
    (upgrade : Nat → Database → Except String Database) : Except String Database :=
  if v < db.version then .error "VersionError"
  else if db.version < v then
    match upgrade db.version db with
    | .error e => .error e
    | .ok db2 => .ok { db2 with version := v }
  else .ok db

def migrate_schema_up_to_v6 (db : Database) : Except String Database :=
  idb_open_u32 db 6 upgrade_v6_callback

def migrate_schema_for_v7 (db : Database) : Except String Database :=
  idb_open_u32 db 7 (fun old_version d =>
    if old_version < 7 then migrate_stores_to_v7 d else .ok d)

/-- No actual schema change; the open at version 8 only records that the v8
data fixup completed. -/
def migrate_schema_for_v8 (db : Database) : Except String Database :=
  idb_open_u32 db 8 (fun _ d => .ok d)

/-! ## Data migrator (legacy store to new-format store, run before v7) -/

/-- Per-record body of the `prepare_data_for_v7` cursor loop: decode the legacy
value into a pickled session, rebuild the domain entity, re-encode it as an
`InboundGroupSessionIndexedDbObject`, `add` it to the new store under the key
read from the legacy entry (carried over verbatim), and delete the legacy
record. -/
def prepare_data_for_v7_record (s : IndexeddbSerializer)
    (old_table new_table : List (String × JsValue)) (key : String) (value : JsValue) :
    Except String (List (String × JsValue) × List (String × JsValue)) :=
  match s.deserialize_value value with
  | .error e => .error e
  | .ok pickle =>
    match InboundGroupSession.from_pickle pickle with
    | .error e => .error e
    | .ok igs =>
      let new_data := serdeToValue
        { pickled_session := s.serialize_value_as_bytes igs.pickle
          needs_backup := !igs.backed_up }
      match tableAdd new_table key new_data with
      | .error e => .error e
      | .ok nt => .ok (tableDelete old_table key, nt)

/-- The `prepare_data_for_v7` cursor loop over the snapshot of legacy keys. -/
def prepare_data_for_v7_records (s : IndexeddbSerializer) :
    List String → List (String × JsValue) → List (String × JsValue) →
    Except String (List (String × JsValue) × List (String × JsValue))
  | [], old_table, new_table => .ok (old_table, new_table)
  | k :: ks, old_table, new_table =>
    match tableGet old_table k with
    | none => prepare_data_for_v7_records s ks old_table new_table
    | some v =>
      match prepare_data_for_v7_record s old_table new_table k v with
      | .error e => .error e
      | .ok (ot, nt) => prepare_data_for_v7_records s ks ot nt

/-- `prepare_data_for_v7`: one read-write transaction over the legacy and
new-format stores, scanning the legacy store and moving every record.  An
error aborts the transaction, so the caller keeps the pre-transaction state. -/
def prepare_data_for_v7 (s : IndexeddbSerializer) (db : Database) : Except String Database :=
  match db.getRecords old_keys.INBOUND_GROUP_SESSIONS_V1,
        db.getRecords keys.INBOUND_GROUP_SESSIONS_V2 with
  | some old_table, some new_table =>
    match prepare_data_for_v7_records s (old_table.map Prod.fst) old_table new_table with
    | .error e => .error e
    | .ok (ot, nt) =>
      .ok ((db.setRecords old_keys.INBOUND_GROUP_SESSIONS_V1 ot).setRecords
            keys.INBOUND_GROUP_SESSIONS_V2 nt)
  | _, _ => .error "NotFoundError"

/-! ## Fixup pass (canonical-key correction, run before v8) -/

/-- Per-record body of the `prepare_data_for_v8` cursor loop: decode the stored
object back to the domain entity, recompute the canonical key from the table
name and the logical key, and if the stored key is stale, delete the stale
record and either keep an existing canonical-key entry (existing wins) or
re-insert the decoded object under the canonical key. -/
def prepare_data_for_v8_record (s : IndexeddbSerializer)
    (table : List (String × JsValue)) (old_key : String) (value : JsValue) :
    Except String (List (String × JsValue)) :=
  match serdeFromValue value with
  | .error e => .error e
  | .ok idb_object =>
    match s.deserialize_value_from_bytes idb_object.pickled_session with
    | .error e => .error e
    | .ok pickled_session =>
      match InboundGroupSession.from_pickle pickled_session with
      | .error e => .error e
      | .ok session =>
        let new_key := s.encode_key keys.INBOUND_GROUP_SESSIONS_V2
          (session.room_id, session.session_id)
        if new_key = old_key then .ok table
        else
          let t2 := tableDelete table old_key
          match tableGet t2 new_key with
          | some _ => .ok t2
          | none => tableAdd t2 new_key (serdeToValue idb_object)

/-- The `prepare_data_for_v8` cursor loop over the snapshot of keys. -/
def prepare_data_for_v8_records (s : IndexeddbSerializer) :
    List String → List (String × JsValue) → Except String (List (String × JsValue))
  | [], table => .ok table
  | k :: ks, table =>
    match tableGet table k with
    | none => prepare_data_for_v8_records s ks table
    | some v =>
      match prepare_data_for_v8_record s table k v with
      | .error e => .error e
      | .ok t2 => prepare_data_for_v8_records s ks t2

/-- `prepare_data_for_v8`: one read-write transaction over the new-format
store, fixing up every stale key.  An error aborts the transaction, so the
caller keeps the pre-transaction state. -/
def prepare_data_for_v8 (s : IndexeddbSerializer) (db : Database) : Except String Database :=
  match db.getRecords keys.INBOUND_GROUP_SESSIONS_V2 with
  | none => .error "NotFoundError"
  | some table =>
    match prepare_data_for_v8_records s (table.map Prod.fst) table with
    | .error e => .error e
    | .ok t2 => .ok (db.setRecords keys.INBOUND_GROUP_SESSIONS_V2 t2)

/-! ## The orchestrator -/

/-- The tail of `open_and_upgrade_db` guarded by `old_version < 8`: run the
fixup pass, record its completion with the version-8 open, and reopen the
store at version 8.  On failure the error is returned together with the
database state that remains persisted. -/
def open_and_upgrade_db_v8_phase (serializer : IndexeddbSerializer) (old_version : Nat)
    (db : Database) : Except (String × Database) Database :=
  if old_version < 8 then
    match prepare_data_for_v8 serializer db with
    | .error e => .error (e, db)
    | .ok dbx =>
      match migrate_schema_for_v8 dbx with
      | .error e => .error (e, dbx)
      | .ok db8 =>
        match idb_open_u32 db8 8 (fun _ d => .ok d) with
        | .error e => .error (e, db8)
        | .ok dbf => .ok dbf
  else
    match idb_open_u32 db 8 (fun _ d => .ok d) with
    | .error e => .error (e, db)
    | .ok dbf => .ok dbf

/-- `open_and_upgrade_db`: open the store at its current version to discover
`old_version`; if below 7, run the phase-1 schema upgrade to version 6, the
data migrator, and the version-7 schema step that drops the legacy store; if
below 8, run the fixup pass and the version-8 marker open; finally return the
store opened at version 8.  On failure the error is returned together with the
database state that remains persisted. -/
def open_and_upgrade_db (serializer : IndexeddbSerializer) (st : Option Database) :
    Except (String × Database) Database :=
  let db0 := idb_open st
  let old_version := db0.version
  if old_version < 7 then
    match migrate_schema_up_to_v6 db0 with
    | .error e => .error (e, db0)
    | .ok db6 =>
      match prepare_data_for_v7 serializer db6 with
      | .error e => .error (e, db6)
      | .ok db6b =>
        match migrate_schema_for_v7 db6b with
        | .error e => .error (e, db6b)
        | .ok db7 => open_and_upgrade_db_v8_phase serializer old_version db7
  else open_and_upgrade_db_v8_phase serializer old_version db0

/-! ## Steady-state reads, modelled from the spec -/

/-- Modelled from the spec: `IndexeddbCryptoStore::get_inbound_group_session`
is not among the provided sources; per the spec a record is reachable by the
canonical key `encode_key(new_table, (container_id, item_id))`, decoded the
same way the fixup pass decodes a stored object. -/
def get_inbound_group_session (s : IndexeddbSerializer) (db : Database)
    (room_id session_id : String) : Except String (Option InboundGroupSession) :=
  match db.getRecords keys.INBOUND_GROUP_SESSIONS_V2 with
  | none => .error "NotFoundError"
  | some table =>
    match tableGet table (s.encode_key keys.INBOUND_GROUP_SESSIONS_V2 (room_id, session_id)) with
    | none => .ok none
    | some value =>
      match serdeFromValue value with
      | .error e => .error e
      | .ok idb_object =>
        match s.deserialize_value_from_bytes idb_object.pickled_session with
        | .error e => .error e
        | .ok pickle =>
          match InboundGroupSession.from_pickle pickle with
          | .error e => .error e
          | .ok session => .ok (some session)

/-- The keys the non-unique `needs_backup` secondary index (created by
`migrate_stores_to_v6`) yields when queried at the value `true`.  Modelled
from the spec: the engine capability provides secondary indexes keyed by a
field of the stored value. -/
def needs_backup_index_keys (table : List (String × JsValue)) : List String :=
  (table.map Prod.fst).filter (fun k =>
    match tableGet table k with
    | some (.v2obj o) => o.needs_backup
    | _ => false)

/-- The full decode pipeline the data migrator applies to a legacy record
value: `deserialize_value` then `InboundGroupSession::from_pickle`. -/
def decode_legacy_value (s : IndexeddbSerializer) (v : JsValue) :
    Except String InboundGroupSession :=
  match s.deserialize_value v with
  | .error e => .error e
  | .ok p => InboundGroupSession.from_pickle p

/-- The full decode pipeline the fixup pass applies to a stored record value:
`serde_wasm_bindgen::from_value`, then `deserialize_value_from_bytes`, then
`InboundGroupSession::from_pickle`. -/
def decode_v8_value (s : IndexeddbSerializer) (v : JsValue) :
    Except String InboundGroupSession :=
  match serdeFromValue v with
  | .error e => .error e
  | .ok obj =>
    match s.deserialize_value_from_bytes obj.pickled_session with
    | .error e => .error e
    | .ok p => InboundGroupSession.from_pickle p

/-! ## Supporting lemmas -/

theorem tableGet_mem_keys {α : Type} (t : List (String × α)) (k : String) (v : α)
    (h : tableGet t k = some v) : k ∈ t.map Prod.fst := by
  induction t with
  | nil => simp [tableGet] at h
  | cons hd tl ih =>
    obtain ⟨a, b⟩ := hd
    simp only [tableGet] at h
    by_cases hak : a = k
    · simp [hak]
    · rw [if_neg hak] at h
      simp [ih h]

theorem tableGet_none_of_not_mem {α : Type} (t : List (String × α)) (k : String)
    (h : k ∉ t.map Prod.fst) : tableGet t k = none := by
  induction t with
  | nil => simp [tableGet]
  | cons hd tl ih =>
    obtain ⟨a, b⟩ := hd
    simp only [List.map, List.mem_cons, not_or] at h
    simp only [tableGet]
    rw [if_neg (fun hh => h.1 hh.symm)]
    exact ih h.2

/-- A successful unversioned-callback open at version 8 yields version 8. -/
theorem idb_open_u32_final_version (db d : Database)
    (h : idb_open_u32 db 8 (fun _ x => .ok x) = .ok d) : d.version = 8 := by
  unfold idb_open_u32 at h
  by_cases h1 : 8 < db.version
  · rw [if_pos h1] at h
    cases h
  · rw [if_neg h1] at h
    by_cases h2 : db.version < 8
    · rw [if_pos h2] at h
      cases h
      rfl
    · rw [if_neg h2] at h
      cases h
      omega

/-- A successful phase-1 schema open targets exactly version 6. -/
theorem migrate_schema_up_to_v6_version (db0 d : Database) (h0 : db0.version < 7)
    (h : migrate_schema_up_to_v6 db0 = .ok d) : d.version = 6 := by
  unfold migrate_schema_up_to_v6 idb_open_u32 at h
  by_cases h1 : 6 < db0.version
  · rw [if_pos h1] at h
    cases h
  · rw [if_neg h1] at h
    by_cases h2 : db0.version < 6
    · rw [if_pos h2] at h
      cases hc : upgrade_v6_callback db0.version db0 with
      | error e =>
        rw [hc] at h
        cases h
      | ok db2 =>
        rw [hc] at h
        cases h
        rfl
    · rw [if_neg h2] at h
      cases h
      omega

/-- A successful v8-phase run ends in the final version-8 open. -/
theorem open_and_upgrade_db_v8_phase_version (s : IndexeddbSerializer) (ov : Nat)
    (db d : Database) (h : open_and_upgrade_db_v8_phase s ov db = .ok d) : d.version = 8 := by
  unfold open_and_upgrade_db_v8_phase at h
  by_cases h8 : ov < 8
  · rw [if_pos h8] at h
    cases hp : prepare_data_for_v8 s db with
    | error e =>
      simp only [hp] at h
      cases h
    | ok dbx =>
      simp only [hp] at h
      cases hm : migrate_schema_for_v8 dbx with
      | error e =>
        simp only [hm] at h
        cases h
      | ok db8 =>
        simp only [hm] at h
        cases hf : idb_open_u32 db8 8 (fun _ x => .ok x) with
        | error e =>
          simp only [hf] at h
          cases h
        | ok dbf =>
          simp only [hf] at h
          cases h
          exact idb_open_u32_final_version db8 d hf
  · rw [if_neg h8] at h
    cases hf : idb_open_u32 db 8 (fun _ x => .ok x) with
    | error e =>
      simp only [hf] at h
      cases h
    | ok dbf =>
      simp only [hf] at h
      cases h
      exact idb_open_u32_final_version db d hf

/-- C1: for every starting store version from 0 (absent) through 8, a
successful `open_and_upgrade_db` returns a store handle opened at version 8. -/
theorem open_and_upgrade_db_returns_v8 (s : IndexeddbSerializer) (st : Option Database)
    (db : Database) (hstart : ∀ d, st = some d → d.version ≤ 8)
    (h : open_and_upgrade_db s st = .ok db) : db.version = 8 := by
  simp only [open_and_upgrade_db] at h
  by_cases h7 : (idb_open st).version < 7
  · rw [if_pos h7] at h
    cases h6 : migrate_schema_up_to_v6 (idb_open st) with
    | error e =>
      simp only [h6] at h
      cases h
    | ok db6 =>
      simp only [h6] at h
      cases hp : prepare_data_for_v7 s db6 with
      | error e =>
        simp only [hp] at h
        cases h
      | ok db6b =>
        simp only [hp] at h
        cases hm : migrate_schema_for_v7 db6b with
        | error e =>
          simp only [hm] at h
          cases h
        | ok db7 =>
          simp only [hm] at h
          exact open_and_upgrade_db_v8_phase_version s (idb_open st).version db7 db h
  · rw [if_neg h7] at h
    exact open_and_upgrade_db_v8_phase_version s (idb_open st).version (idb_open st) db h

deriving instance DecidableEq for Except

/-! ## A concrete serializer for witnesses -/

/-- A concrete, invertible serializer: keys are the table name and the logical
key joined with separators, values are wrapped pickles, and the bytes codec is
the identity on pickles.  Stored garbage (an empty blob) fails to decode. -/
def demo_serializer : IndexeddbSerializer where
  encode_key := fun tbl p => tbl ++ ":" ++ p.1 ++ ":" ++ p.2
  serialize_value := fun p => .legacyBlob (some p)
  deserialize_value := fun v =>
    match v with
    | .legacyBlob (some p) => .ok p
    | _ => .error "DecodeError"
  serialize_value_as_bytes := some
  deserialize_value_from_bytes := fun b =>
    match b with
    | some p => .ok p
    | none => .error "DecodeError"
  round_trip_value := fun _ => rfl
  round_trip_bytes := fun _ => rfl

/-- The database produced by a fresh-store run of the orchestrator. -/
def demo_fresh_run : Database :=
  match open_and_upgrade_db demo_serializer none with
  | .ok d => d
  | .error _ => { version := 0, stores := [] }

/-- C1 witness: a fresh store (version 0/absent) opens successfully and the
returned handle is at version 8. -/
theorem open_and_upgrade_db_returns_v8_witness : demo_fresh_run.version = 8 :=
  open_and_upgrade_db_returns_v8 demo_serializer none demo_fresh_run
    (fun _ hd => Option.noConfusion hd) (by rfl)

/-! ## C6: no-op behaviour of the guarded schema steps -/

/-- C6 counterexample: on a freshly created database the upgrade event reports
`old_version = 1` (a plain open persists an empty database at version 1), the
store is thus already at the v1 step's version, and yet the v1 step is not a
no-op: its guard looks at catalog emptiness, not at `old_version`. -/
theorem apply_schema_step_v1_not_noop :
    apply_schema_step 1 1 { version := 1, stores := [] } ≠
      .ok { version := 1, stores := [] } := by
  decide

/-- C6 amended: steps 2 through 6 are no-ops whenever the store is already at
or past the step's version, decided by the step's own `old_version` guard
inside the upgrade callback; step 1 instead guards on the object-store catalog
being empty (because `old_version = 1` is ambiguous between a fresh database
and a genuine v1 store), so it is a no-op whenever any object store exists,
regardless of `old_version`. -/
theorem apply_schema_step_noop_behavior :
    (∀ step old_version db, 2 ≤ step → step ≤ 6 → step ≤ old_version →
      apply_schema_step step old_version db = .ok db) ∧
    (∀ old_version db, db.stores ≠ [] →
      apply_schema_step 1 old_version db = .ok db) := by
  constructor
  · intro step ov db h2 h6 hle
    interval_cases step <;>
      · simp only [apply_schema_step]
        rw [if_neg (by omega)]
  · intro ov db hne
    have hfalse : db.stores.isEmpty = false := by
      cases hs : db.stores with
      | nil => exact absurd hs hne
      | cons a t => rfl
    simp only [apply_schema_step, hfalse]
    rfl

/-- C6 amended witness: step 2 at `old_version = 5` is a no-op, and step 1 is
a no-op on a non-empty catalog. -/
theorem apply_schema_step_noop_behavior_witness :
    apply_schema_step 2 5 { version := 5, stores := [] } =
      .ok { version := 5, stores := [] } ∧
    apply_schema_step 1 0
        { version := 1, stores := [(keys.CORE, { records := [], indexes := [] })] } =
      .ok { version := 1, stores := [(keys.CORE, { records := [], indexes := [] })] } :=
  ⟨apply_schema_step_noop_behavior.1 2 5 _ (by decide) (by decide) (by decide),
   apply_schema_step_noop_behavior.2 0 _ (by decide)⟩

/-- Discriminator for failed operations. -/
def isError {ε α : Type} : Except ε α → Bool
  | .error _ => true
  | .ok _ => false

/-- The database state persisted after a failed orchestrator run. -/
def errorState : Except (String × Database) Database → Option Database
  | .error (_, d) => some d
  | .ok _ => none

/-! ## C3: the data migrator's per-record transform -/

/-- C3: every record processed by the data migrator is decoded from the legacy
pickled-session format, re-encoded as a payload/needs-backup pair, and written
to the new table under exactly the physical key read from the legacy entry. -/
theorem prepare_data_for_v7_record_transform (s : IndexeddbSerializer)
    (old_table new_table : List (String × JsValue)) (k : String) (v : JsValue)
    (p : PickledInboundGroupSession) (igs : InboundGroupSession)
    (h1 : s.deserialize_value v = .ok p)
    (h2 : InboundGroupSession.from_pickle p = .ok igs)
    (h3 : tableGet new_table k = none) :
    prepare_data_for_v7_record s old_table new_table k v =
      .ok (tableDelete old_table k,
        new_table ++ [(k, serdeToValue
          { pickled_session := s.serialize_value_as_bytes igs.pickle
            needs_backup := !igs.backed_up })]) := by
  simp only [prepare_data_for_v7_record, h1, h2, tableAdd, h3]

def demo_pickle_a : PickledInboundGroupSession :=
  { room_id := "!room:x", session_id := "sa", backed_up := true }

def demo_pickle_b : PickledInboundGroupSession :=
  { room_id := "!room:x", session_id := "sb", backed_up := false }

/-- C3 witness at a concrete record. -/
theorem prepare_data_for_v7_record_transform_witness :
    prepare_data_for_v7_record demo_serializer
        [("a", JsValue.legacyBlob (some demo_pickle_a))] [] "a"
        (JsValue.legacyBlob (some demo_pickle_a)) =
      .ok ([], [("a", JsValue.v2obj { pickled_session := some demo_pickle_a
                                      needs_backup := false })]) :=
  prepare_data_for_v7_record_transform demo_serializer
    [("a", JsValue.legacyBlob (some demo_pickle_a))] [] "a"
    (JsValue.legacyBlob (some demo_pickle_a)) demo_pickle_a
    { room_id := demo_pickle_a.room_id, session_id := demo_pickle_a.session_id
      backed_up := demo_pickle_a.backed_up }
    (by rfl) (by rfl) (by rfl)

/-! ## C9: the data migrator never overwrites a destination record -/

theorem prepare_data_for_v7_records_error_of_conflict (s : IndexeddbSerializer)
    (ks : List String) :
    ∀ old_table new_table k v w, tableGet old_table k = some v →
      tableGet new_table k = some w → k ∈ ks →
      isError (prepare_data_for_v7_records s ks old_table new_table) = true := by
  induction ks with
  | nil =>
    intro _ _ _ _ _ _ _ hk
    cases hk
  | cons k1 ks ih =>
    intro ot nt k v w hold hnew hk
    cases hget : tableGet ot k1 with
    | none =>
      have hkks : k ∈ ks := by
        cases List.mem_cons.mp hk with
        | inl heq =>
          rw [heq] at hold
          rw [hold] at hget
          cases hget
        | inr hmem => exact hmem
      simp only [prepare_data_for_v7_records, hget]
      exact ih ot nt k v w hold hnew hkks
    | some v1 =>
      simp only [prepare_data_for_v7_records, hget, prepare_data_for_v7_record]
      cases hd : s.deserialize_value v1 with
      | error e => rfl
      | ok p =>
        simp only [InboundGroupSession.from_pickle, tableAdd]
        cases hga : tableGet nt k1 with
        | some w1 => rfl
        | none =>
          have hne : k ≠ k1 := by
            intro hh
            rw [hh] at hnew
            rw [hnew] at hga
            cases hga
          have hold2 : tableGet (tableDelete ot k1) k = some v := by
            rw [tableGet_delete, if_neg hne]
            exact hold
          have hkks : k ∈ ks := by
            cases List.mem_cons.mp hk with
            | inl heq => exact absurd heq hne
            | inr hmem => exact hmem
          have hnew2 : ∀ x : JsValue, tableGet (nt ++ [(k1, x)]) k = some w := by
            intro x
            rw [tableGet_append, hnew]
          exact ih _ _ k v w hold2 (hnew2 _) hkks

/-- C9: the data migrator never overwrites an existing destination record —
if the new table already holds an entry under a legacy record's carried-over
physical key, the `add` fails and the whole migration batch errors out. -/
theorem prepare_data_for_v7_no_overwrite (s : IndexeddbSerializer)
    (old_table new_table : List (String × JsValue)) (k : String) (v w : JsValue)
    (hold : tableGet old_table k = some v) (hnew : tableGet new_table k = some w) :
    isError (prepare_data_for_v7_records s (old_table.map Prod.fst)
      old_table new_table) = true :=
  prepare_data_for_v7_records_error_of_conflict s (old_table.map Prod.fst)
    old_table new_table k v w hold hnew (tableGet_mem_keys _ _ _ hold)

/-- C9 witness: a concrete legacy record whose key is already taken in the
destination table makes the batch fail. -/
theorem prepare_data_for_v7_no_overwrite_witness :
    isError (prepare_data_for_v7_records demo_serializer ["a"]
      [("a", JsValue.legacyBlob (some demo_pickle_a))]
      [("a", JsValue.v2obj { pickled_session := some demo_pickle_b
                             needs_backup := true })]) = true :=
  prepare_data_for_v7_no_overwrite demo_serializer
    [("a", JsValue.legacyBlob (some demo_pickle_a))]
    [("a", JsValue.v2obj { pickled_session := some demo_pickle_b, needs_backup := true })]
    "a" (JsValue.legacyBlob (some demo_pickle_a))
    (JsValue.v2obj { pickled_session := some demo_pickle_b, needs_backup := true })
    (by rfl) (by rfl)

/-! ## C2: the fixup pass's per-record behaviour -/

/-- C2: for a record whose value decodes, the fixup step leaves it untouched
when its stored key equals the canonical key recomputed from the table name
and the logical key; otherwise it deletes the record at the stale key and
either keeps an existing canonical-key entry untouched (existing wins, the
stale value is discarded) or, when no canonical-key entry exists, re-inserts
the decoded value under the canonical key. -/
theorem prepare_data_for_v8_record_cases (s : IndexeddbSerializer)
    (table : List (String × JsValue)) (k : String) (v : JsValue)
    (obj : InboundGroupSessionIndexedDbObject) (p : PickledInboundGroupSession)
    (session : InboundGroupSession)
    (h1 : serdeFromValue v = .ok obj)
    (h2 : s.deserialize_value_from_bytes obj.pickled_session = .ok p)
    (h3 : InboundGroupSession.from_pickle p = .ok session) :
    (s.encode_key keys.INBOUND_GROUP_SESSIONS_V2 (session.room_id, session.session_id) = k →
      prepare_data_for_v8_record s table k v = .ok table) ∧
    (∀ w, s.encode_key keys.INBOUND_GROUP_SESSIONS_V2 (session.room_id, session.session_id) ≠ k →
      tableGet (tableDelete table k)
        (s.encode_key keys.INBOUND_GROUP_SESSIONS_V2 (session.room_id, session.session_id)) =
        some w →
      prepare_data_for_v8_record s table k v = .ok (tableDelete table k) ∧
      tableGet (tableDelete table k)
        (s.encode_key keys.INBOUND_GROUP_SESSIONS_V2 (session.room_id, session.session_id)) =
        some w) ∧
    (s.encode_key keys.INBOUND_GROUP_SESSIONS_V2 (session.room_id, session.session_id) ≠ k →
      tableGet (tableDelete table k)
        (s.encode_key keys.INBOUND_GROUP_SESSIONS_V2 (session.room_id, session.session_id)) =
        none →
      prepare_data_for_v8_record s table k v =
        .ok (tableDelete table k ++
          [(s.encode_key keys.INBOUND_GROUP_SESSIONS_V2 (session.room_id, session.session_id),
            serdeToValue obj)])) := by
  refine ⟨?_, ?_, ?_⟩
  · intro heq
    simp only [prepare_data_for_v8_record, h1, h2, h3]
    rw [if_pos heq]
  · intro w hne hw
    refine ⟨?_, hw⟩
    simp only [prepare_data_for_v8_record, h1, h2, h3]
    rw [if_neg hne]
    simp only [hw]
  · intro hne hw
    simp only [prepare_data_for_v8_record, h1, h2, h3]
    rw [if_neg hne]
    simp only [hw, tableAdd]

/-- C2 witness: a concrete record under a stale key, with no entry at the
canonical key, is re-inserted under the canonical key. -/
theorem prepare_data_for_v8_record_cases_witness :
    prepare_data_for_v8_record demo_serializer
        [("stale", JsValue.v2obj { pickled_session := some demo_pickle_a
                                   needs_backup := false })]
        "stale"
        (JsValue.v2obj { pickled_session := some demo_pickle_a, needs_backup := false }) =
      .ok [("inbound_group_sessions2:!room:x:sa",
            JsValue.v2obj { pickled_session := some demo_pickle_a, needs_backup := false })] :=
  (prepare_data_for_v8_record_cases demo_serializer
      [("stale", JsValue.v2obj { pickled_session := some demo_pickle_a, needs_backup := false })]
      "stale"
      (JsValue.v2obj { pickled_session := some demo_pickle_a, needs_backup := false })
      { pickled_session := some demo_pickle_a, needs_backup := false }
      demo_pickle_a
      { room_id := demo_pickle_a.room_id, session_id := demo_pickle_a.session_id
        backed_up := demo_pickle_a.backed_up }
      (by rfl) (by rfl) (by rfl)).2.2 (by decide) (by rfl)

/-! ## C10: needs_backup is the negation of the backed-up flag -/

theorem prepare_data_for_v7_records_contents (s : IndexeddbSerializer) (ks : List String) :
    ∀ old_table new_table ot nt,
      prepare_data_for_v7_records s ks old_table new_table = .ok (ot, nt) →
      ∀ k x, tableGet nt k = some x →
        tableGet new_table k = some x ∨
        ∃ v p igs, tableGet old_table k = some v ∧ s.deserialize_value v = .ok p ∧
          InboundGroupSession.from_pickle p = .ok igs ∧
          x = serdeToValue { pickled_session := s.serialize_value_as_bytes igs.pickle
                             needs_backup := !igs.backed_up } := by
  induction ks with
  | nil =>
    intro old_table new_table ot nt h k x hx
    simp only [prepare_data_for_v7_records] at h
    cases h
    exact Or.inl hx
  | cons k1 ks ih =>
    intro old_table new_table ot nt h k x hx
    cases hget : tableGet old_table k1 with
    | none =>
      simp only [prepare_data_for_v7_records, hget] at h
      exact ih old_table new_table ot nt h k x hx
    | some v1 =>
      simp only [prepare_data_for_v7_records, hget, prepare_data_for_v7_record] at h
      cases hd : s.deserialize_value v1 with
      | error e =>
        rw [hd] at h
        cases h
      | ok p1 =>
        rw [hd] at h
        simp only [InboundGroupSession.from_pickle, tableAdd] at h
        cases hga : tableGet new_table k1 with
        | some w1 =>
          rw [hga] at h
          cases h
        | none =>
          rw [hga] at h
          rcases ih _ _ ot nt h k x hx with hA | hB
          · rw [tableGet_append] at hA
            cases hnk : tableGet new_table k with
            | some x2 =>
              rw [hnk] at hA
              cases hA
              exact Or.inl rfl
            | none =>
              rw [hnk] at hA
              simp only [tableGet] at hA
              by_cases hk1k : k1 = k
              · rw [if_pos hk1k] at hA
                cases hA
                refine Or.inr ⟨v1, p1, _, ?_, hd, rfl, rfl⟩
                rw [← hk1k]
                exact hget
              · rw [if_neg hk1k] at hA
                cases hA
          · obtain ⟨v, p, igs, hgv, hdp, hfp, hxv⟩ := hB
            rw [tableGet_delete] at hgv
            by_cases hkk1 : k = k1
            · rw [if_pos hkk1] at hgv
              cases hgv
            · rw [if_neg hkk1] at hgv
              exact Or.inr ⟨v, p, igs, hgv, hdp, hfp, hxv⟩

/-- Membership in the needs-backup index query, for a key whose stored record
is a new-format object. -/
theorem needs_backup_index_keys_mem (t : List (String × JsValue)) (k : String)
    (o : InboundGroupSessionIndexedDbObject) (h : tableGet t k = some (.v2obj o)) :
    k ∈ needs_backup_index_keys t ↔ o.needs_backup = true := by
  unfold needs_backup_index_keys
  rw [List.mem_filter]
  constructor
  · rintro ⟨_, hp⟩
    rw [h] at hp
    exact hp
  · intro hb
    refine ⟨tableGet_mem_keys _ _ _ h, ?_⟩
    rw [h]
    exact hb

/-- C10: every record produced by the data migrator stores the logical
negation of the session's backed-up flag as `needs_backup`, and the
`needs_backup` secondary index therefore yields exactly the keys of sessions
that have not been backed up. -/
theorem prepare_data_for_v7_needs_backup (s : IndexeddbSerializer)
    (old_table ot nt : List (String × JsValue))
    (hrun : prepare_data_for_v7_records s (old_table.map Prod.fst) old_table [] =
      .ok (ot, nt)) :
    ∀ k x, tableGet nt k = some x →
      ∃ v p igs, tableGet old_table k = some v ∧ s.deserialize_value v = .ok p ∧
        InboundGroupSession.from_pickle p = .ok igs ∧
        x = serdeToValue { pickled_session := s.serialize_value_as_bytes igs.pickle
                           needs_backup := !igs.backed_up } ∧
        (k ∈ needs_backup_index_keys nt ↔ igs.backed_up = false) := by
  intro k x hx
  rcases prepare_data_for_v7_records_contents s (old_table.map Prod.fst)
      old_table [] ot nt hrun k x hx with hA | hB
  · simp [tableGet] at hA
  · obtain ⟨v, p, igs, hgv, hdp, hfp, hxv⟩ := hB
    refine ⟨v, p, igs, hgv, hdp, hfp, hxv, ?_⟩
    have hobj : tableGet nt k = some (.v2obj
        { pickled_session := s.serialize_value_as_bytes igs.pickle
          needs_backup := !igs.backed_up }) := by
      rw [hx, hxv]
      rfl
    rw [needs_backup_index_keys_mem nt k _ hobj]
    exact (Bool.not_eq_true' igs.backed_up).to_iff

def demo_legacy_table : List (String × JsValue) :=
  [("a", .legacyBlob (some demo_pickle_a)), ("b", .legacyBlob (some demo_pickle_b))]

def demo_v7_ot : List (String × JsValue) :=
  match prepare_data_for_v7_records demo_serializer (demo_legacy_table.map Prod.fst)
      demo_legacy_table [] with
  | .ok (ot, _) => ot
  | .error _ => []

def demo_v7_nt : List (String × JsValue) :=
  match prepare_data_for_v7_records demo_serializer (demo_legacy_table.map Prod.fst)
      demo_legacy_table [] with
  | .ok (_, nt) => nt
  | .error _ => []

/-- C10 witness at a concrete migrated record. -/
theorem prepare_data_for_v7_needs_backup_witness :
    ∃ v p igs, tableGet demo_legacy_table "a" = some v ∧
      demo_serializer.deserialize_value v = .ok p ∧
      InboundGroupSession.from_pickle p = .ok igs ∧
      JsValue.v2obj { pickled_session := some demo_pickle_a, needs_backup := false } =
        serdeToValue { pickled_session := demo_serializer.serialize_value_as_bytes igs.pickle
                       needs_backup := !igs.backed_up } ∧
      ("a" ∈ needs_backup_index_keys demo_v7_nt ↔ igs.backed_up = false) :=
  prepare_data_for_v7_needs_backup demo_serializer demo_legacy_table demo_v7_ot demo_v7_nt
    (by rfl) "a" (JsValue.v2obj { pickled_session := some demo_pickle_a, needs_backup := false })
    (by rfl)

/-! ## C4: idempotence of the fixup pass -/

/-- After a successful fixup scan, every surviving record either sits at the
canonical key of its decoded content, or was never visited by the scan. -/
theorem prepare_data_for_v8_records_canonical (s : IndexeddbSerializer) (ks : List String) :
    ∀ t t2, prepare_data_for_v8_records s ks t = .ok t2 →
      ∀ k v, tableGet t2 k = some v →
        (∃ obj p session, serdeFromValue v = .ok obj ∧
          s.deserialize_value_from_bytes obj.pickled_session = .ok p ∧
          InboundGroupSession.from_pickle p = .ok session ∧
          s.encode_key keys.INBOUND_GROUP_SESSIONS_V2 (session.room_id, session.session_id) = k) ∨
        (tableGet t k = some v ∧ k ∉ ks) := by
  induction ks with
  | nil =>
    intro t t2 h k v hv
    simp only [prepare_data_for_v8_records] at h
    cases h
    exact Or.inr ⟨hv, by simp⟩
  | cons k1 ks ih =>
    intro t t2 h k v hv
    cases hget : tableGet t k1 with
    | none =>
      simp only [prepare_data_for_v8_records, hget] at h
      rcases ih t t2 h k v hv with hL | ⟨hg, hks⟩
      · exact Or.inl hL
      · refine Or.inr ⟨hg, ?_⟩
        intro hmem
        rcases List.mem_cons.mp hmem with rfl | hmem2
        · rw [hg] at hget
          cases hget
        · exact hks hmem2
    | some v1 =>
      simp only [prepare_data_for_v8_records, hget, prepare_data_for_v8_record] at h
      cases hs1 : serdeFromValue v1 with
      | error e =>
        simp only [hs1] at h
        cases h
      | ok obj1 =>
        simp only [hs1] at h
        cases hs2 : s.deserialize_value_from_bytes obj1.pickled_session with
        | error e =>
          simp only [hs2] at h
          cases h
        | ok p1 =>
          simp only [hs2, InboundGroupSession.from_pickle] at h
          by_cases hnk : s.encode_key keys.INBOUND_GROUP_SESSIONS_V2
              (p1.room_id, p1.session_id) = k1
          · rw [if_pos hnk] at h
            rcases ih t t2 h k v hv with hL | ⟨hg, hks⟩
            · exact Or.inl hL
            · by_cases hkk1 : k = k1
              · subst hkk1
                rw [hg] at hget
                cases hget
                exact Or.inl ⟨obj1, p1,
                  { room_id := p1.room_id, session_id := p1.session_id
                    backed_up := p1.backed_up }, hs1, hs2, rfl, hnk⟩
              · refine Or.inr ⟨hg, ?_⟩
                intro hmem
                rcases List.mem_cons.mp hmem with rfl | hmem2
                · exact hkk1 rfl
                · exact hks hmem2
          · rw [if_neg hnk] at h
            cases hga : tableGet (tableDelete t k1)
                (s.encode_key keys.INBOUND_GROUP_SESSIONS_V2 (p1.room_id, p1.session_id)) with
            | some w =>
              simp only [hga] at h
              rcases ih _ t2 h k v hv with hL | ⟨hg, hks⟩
              · exact Or.inl hL
              · rw [tableGet_delete] at hg
                by_cases hkk1 : k = k1
                · rw [if_pos hkk1] at hg
                  cases hg
                · rw [if_neg hkk1] at hg
                  refine Or.inr ⟨hg, ?_⟩
                  intro hmem
                  rcases List.mem_cons.mp hmem with rfl | hmem2
                  · exact hkk1 rfl
                  · exact hks hmem2
            | none =>
              simp only [hga, tableAdd] at h
              rcases ih _ t2 h k v hv with hL | ⟨hg, hks⟩
              · exact Or.inl hL
              · rw [tableGet_append] at hg
                cases hgd : tableGet (tableDelete t k1) k with
                | some w2 =>
                  rw [hgd] at hg
                  cases hg
                  rw [tableGet_delete] at hgd
                  by_cases hkk1 : k = k1
                  · rw [if_pos hkk1] at hgd
                    cases hgd
                  · rw [if_neg hkk1] at hgd
                    refine Or.inr ⟨hgd, ?_⟩
                    intro hmem
                    rcases List.mem_cons.mp hmem with rfl | hmem2
                    · exact hkk1 rfl
                    · exact hks hmem2
                | none =>
                  rw [hgd] at hg
                  simp only [tableGet] at hg
                  by_cases hkc : s.encode_key keys.INBOUND_GROUP_SESSIONS_V2
                      (p1.room_id, p1.session_id) = k
                  · rw [if_pos hkc] at hg
                    cases hg
                    exact Or.inl ⟨obj1, p1,
                      { room_id := p1.room_id, session_id := p1.session_id
                        backed_up := p1.backed_up }, rfl, hs2, rfl, hkc⟩
                  · rw [if_neg hkc] at hg
                    cases hg

/-- A scan over records that all sit at their canonical keys is a no-op. -/
theorem prepare_data_for_v8_records_noop (s : IndexeddbSerializer) (ks : List String) :
    ∀ t, (∀ k v, tableGet t k = some v →
        ∃ obj p session, serdeFromValue v = .ok obj ∧
          s.deserialize_value_from_bytes obj.pickled_session = .ok p ∧
          InboundGroupSession.from_pickle p = .ok session ∧
          s.encode_key keys.INBOUND_GROUP_SESSIONS_V2 (session.room_id, session.session_id) = k) →
      prepare_data_for_v8_records s ks t = .ok t := by
  induction ks with
  | nil =>
    intro t _
    rfl
  | cons k1 ks ih =>
    intro t hcanon
    cases hget : tableGet t k1 with
    | none =>
      simp only [prepare_data_for_v8_records, hget]
      exact ih t hcanon
    | some v1 =>
      obtain ⟨obj, p, session, h1, h2, h3, h4⟩ := hcanon k1 v1 hget
      have h3e : session = { room_id := p.room_id, session_id := p.session_id
                             backed_up := p.backed_up } := by
        cases h3
        rfl
      subst h3e
      have hrec : prepare_data_for_v8_record s t k1 v1 = .ok t := by
        simp only [prepare_data_for_v8_record, h1, h2, InboundGroupSession.from_pickle]
        rw [if_pos h4]
      simp only [prepare_data_for_v8_records, hget, hrec]
      exact ih t hcanon

/-- C4: the fixup pass is idempotent — a second run of `prepare_data_for_v8`
immediately after a successful run returns the store state unchanged. -/
theorem prepare_data_for_v8_idempotent (s : IndexeddbSerializer) (db db2 : Database)
    (h : prepare_data_for_v8 s db = .ok db2) :
    prepare_data_for_v8 s db2 = .ok db2 := by
  unfold prepare_data_for_v8 at h
  cases hst : tableGet db.stores keys.INBOUND_GROUP_SESSIONS_V2 with
  | none =>
    simp only [Database.getRecords, hst, Option.map] at h
    cases h
  | some st =>
    simp only [Database.getRecords, hst, Option.map] at h
    cases hl : prepare_data_for_v8_records s (st.records.map Prod.fst) st.records with
    | error e =>
      rw [hl] at h
      cases h
    | ok t2 =>
      rw [hl] at h
      have heq : db2 = Database.setRecords db keys.INBOUND_GROUP_SESSIONS_V2 t2 := by
        cases h
        rfl
      have hca : ∀ k v, tableGet t2 k = some v →
          ∃ obj p session, serdeFromValue v = .ok obj ∧
            s.deserialize_value_from_bytes obj.pickled_session = .ok p ∧
            InboundGroupSession.from_pickle p = .ok session ∧
            s.encode_key keys.INBOUND_GROUP_SESSIONS_V2
              (session.room_id, session.session_id) = k := by
        intro k v hv
        rcases prepare_data_for_v8_records_canonical s (st.records.map Prod.fst)
            st.records t2 hl k v hv with hL | ⟨hg, hks⟩
        · exact hL
        · exact absurd (tableGet_mem_keys _ _ _ hg) hks
      have hst2 : tableGet db2.stores keys.INBOUND_GROUP_SESSIONS_V2 =
          some { records := t2, indexes := st.indexes } := by
        rw [heq]
        simp only [Database.setRecords, hst]
        rw [tableGet_put, if_pos rfl]
      unfold prepare_data_for_v8
      simp only [Database.getRecords, hst2, Option.map]
      rw [prepare_data_for_v8_records_noop s (t2.map Prod.fst) t2 hca]
      simp only [Database.setRecords, hst2]
      rw [tablePut_self _ _ _ hst2]

/-- The state of
a concrete store after one fixup run over a stale-keyed record. -/
def demo_v8_db : Database :=
  match prepare_data_for_v8 demo_serializer
      { version := 7
        stores := [(keys.INBOUND_GROUP_SESSIONS_V2,
          { records := [("stale", JsValue.v2obj { pickled_session := some demo_pickle_a
                                                  needs_backup := false })]
            indexes := [] })] } with
  | .ok d => d
  | .error _ => { version := 0, stores := [] }

/-- C4 witness: running the fixup pass again on the concrete fixed-up store
leaves it unchanged. -/
theorem prepare_data_for_v8_idempotent_witness :
    prepare_data_for_v8 demo_serializer demo_v8_db = .ok demo_v8_db :=
  prepare_data_for_v8_idempotent demo_serializer
    { version := 7
      stores := [(keys.INBOUND_GROUP_SESSIONS_V2,
        { records := [("stale", JsValue.v2obj { pickled_session := some demo_pickle_a
                                                needs_backup := false })]
          indexes := [] })] }
    demo_v8_db (by rfl)

/-! ## C5: decode errors abort the migration -/

theorem prepare_data_for_v7_records_error_of_decode (s : IndexeddbSerializer)
    (ks : List String) :
    ∀ old_table new_table k v e0, tableGet old_table k = some v → k ∈ ks →
      decode_legacy_value s v = .error e0 →
      isError (prepare_data_for_v7_records s ks old_table new_table) = true := by
  induction ks with
  | nil =>
    intro _ _ _ _ _ _ hk _
    cases hk
  | cons k1 ks ih =>
    intro ot nt k v e0 hold hk herr
    cases hget : tableGet ot k1 with
    | none =>
      have hkks : k ∈ ks := by
        rcases List.mem_cons.mp hk with rfl | hmem
        · rw [hold] at hget
          cases hget
        · exact hmem
      simp only [prepare_data_for_v7_records, hget]
      exact ih ot nt k v e0 hold hkks herr
    | some v1 =>
      simp only [prepare_data_for_v7_records, hget, prepare_data_for_v7_record]
      cases hd : s.deserialize_value v1 with
      | error e => rfl
      | ok p1 =>
        have hne : k1 ≠ k := by
          intro hh
          subst hh
          rw [hold] at hget
          cases hget
          simp only [decode_legacy_value, hd, InboundGroupSession.from_pickle] at herr
          cases herr
        simp only [InboundGroupSession.from_pickle, tableAdd]
        cases hga : tableGet nt k1 with
        | some w1 => rfl
        | none =>
          have hold2 : tableGet (tableDelete ot k1) k = some v := by
            rw [tableGet_delete, if_neg (fun hh => hne hh.symm)]
            exact hold
          have hkks : k ∈ ks := by
            rcases List.mem_cons.mp hk with rfl | hmem
            · exact absurd rfl hne
            · exact hmem
          exact ih _ _ k v e0 hold2 hkks herr

theorem prepare_data_for_v8_record_ok_decodes (s : IndexeddbSerializer)
    (t : List (String × JsValue)) (k1 : String) (v1 : JsValue)
    (t2 : List (String × JsValue))
    (hrec : prepare_data_for_v8_record s t k1 v1 = .ok t2) :
    ∃ igs, decode_v8_value s v1 = .ok igs := by
  unfold prepare_data_for_v8_record at hrec
  cases hs1 : serdeFromValue v1 with
  | error e =>
    simp only [hs1] at hrec
    cases hrec
  | ok obj1 =>
    simp only [hs1] at hrec
    cases hs2 : s.deserialize_value_from_bytes obj1.pickled_session with
    | error e =>
      simp only [hs2] at hrec
      cases hrec
    | ok p1 =>
      exact ⟨{ room_id := p1.room_id, session_id := p1.session_id
               backed_up := p1.backed_up },
        by simp only [decode_v8_value, hs1, hs2, InboundGroupSession.from_pickle]⟩

theorem prepare_data_for_v8_record_preserves (s : IndexeddbSerializer)
    (t : List (String × JsValue)) (k1 : String) (v1 : JsValue)
    (t2 : List (String × JsValue)) (k : String) (v : JsValue)
    (hrec : prepare_data_for_v8_record s t k1 v1 = .ok t2)
    (hne : k ≠ k1) (hold : tableGet t k = some v) :
    tableGet t2 k = some v := by
  unfold prepare_data_for_v8_record at hrec
  cases hs1 : serdeFromValue v1 with
  | error e =>
    rw [hs1] at hrec
    cases hrec
  | ok obj1 =>
    simp only [hs1] at hrec
    cases hs2 : s.deserialize_value_from_bytes obj1.pickled_session with
    | error e =>
      simp only [hs2] at hrec
      cases hrec
    | ok p1 =>
      simp only [hs2, InboundGroupSession.from_pickle] at hrec
      have holdd : tableGet (tableDelete t k1) k = some v := by
        rw [tableGet_delete, if_neg hne]
        exact hold
      by_cases hnk : s.encode_key keys.INBOUND_GROUP_SESSIONS_V2
          (p1.room_id, p1.session_id) = k1
      · rw [if_pos hnk] at hrec
        cases hrec
        exact hold
      · rw [if_neg hnk] at hrec
        cases hga : tableGet (tableDelete t k1)
            (s.encode_key keys.INBOUND_GROUP_SESSIONS_V2 (p1.room_id, p1.session_id)) with
        | some w =>
          simp only [hga] at hrec
          cases hrec
          exact holdd
        | none =>
          simp only [hga, tableAdd] at hrec
          cases hrec
          rw [tableGet_append, holdd]

theorem prepare_data_for_v8_records_error_of_decode (s : IndexeddbSerializer)
    (ks : List String) :
    ∀ table k v e0, tableGet table k = some v → k ∈ ks →
      decode_v8_value s v = .error e0 →
      isError (prepare_data_for_v8_records s ks table) = true := by
  induction ks with
  | nil =>
    intro _ _ _ _ _ hk _
    cases hk
  | cons k1 ks ih =>
    intro t k v e0 hold hk herr
    cases hget : tableGet t k1 with
    | none =>
      have hkks : k ∈ ks := by
        rcases List.mem_cons.mp hk with rfl | hmem
        · rw [hold] at hget
          cases hget
        · exact hmem
      simp only [prepare_data_for_v8_records, hget]
      exact ih t k v e0 hold hkks herr
    | some v1 =>
      simp only [prepare_data_for_v8_records, hget]
      cases hrec : prepare_data_for_v8_record s t k1 v1 with
      | error e => rfl
      | ok t2 =>
        have hne : k1 ≠ k := by
          intro hh
          subst hh
          rw [hold] at hget
          cases hget
          obtain ⟨igs, hdec⟩ := prepare_data_for_v8_record_ok_decodes s t k1 v t2 hrec
          rw [hdec] at herr
          cases herr
        have hkks : k ∈ ks := by
          rcases List.mem_cons.mp hk with rfl | hmem
          · exact absurd rfl hne
          · exact hmem
        exact ih t2 k v e0
          (prepare_data_for_v8_record_preserves s t k1 v1 t2 k v hrec
            (fun hh => hne hh.symm) hold) hkks herr

theorem prepare_data_for_v7_error_of_decode (s : IndexeddbSerializer) (db6 : Database)
    (tbl : List (String × JsValue)) (k : String) (v : JsValue) (e0 : String)
    (hgr : db6.getRecords old_keys.INBOUND_GROUP_SESSIONS_V1 = some tbl)
    (hold : tableGet tbl k = some v)
    (herr : decode_legacy_value s v = .error e0) :
    isError (prepare_data_for_v7 s db6) = true := by
  unfold prepare_data_for_v7
  cases hgr2 : db6.getRecords keys.INBOUND_GROUP_SESSIONS_V2 with
  | none =>
    simp only [hgr, hgr2]
    rfl
  | some nt =>
    simp only [hgr, hgr2]
    have hloop := prepare_data_for_v7_records_error_of_decode s (tbl.map Prod.fst)
      tbl nt k v e0 hold (tableGet_mem_keys _ _ _ hold) herr
    cases hl : prepare_data_for_v7_records s (tbl.map Prod.fst) tbl nt with
    | error e =>
      simp only [hl]
      rfl
    | ok pr =>
      rw [hl] at hloop
      simp only [isError] at hloop
      cases hloop

theorem prepare_data_for_v8_error_of_decode (s : IndexeddbSerializer) (db : Database)
    (tbl : List (String × JsValue)) (k : String) (v : JsValue) (e0 : String)
    (hgr : db.getRecords keys.INBOUND_GROUP_SESSIONS_V2 = some tbl)
    (hold : tableGet tbl k = some v)
    (herr : decode_v8_value s v = .error e0) :
    isError (prepare_data_for_v8 s db) = true := by
  unfold prepare_data_for_v8
  simp only [hgr]
  have hloop := prepare_data_for_v8_records_error_of_decode s (tbl.map Prod.fst)
    tbl k v e0 hold (tableGet_mem_keys _ _ _ hold) herr
  cases hl : prepare_data_for_v8_records s (tbl.map Prod.fst) tbl with
  | error e =>
    simp only [hl]
    rfl
  | ok t2 =>
    rw [hl] at hloop
    simp only [isError] at hloop
    cases hloop

/-- C5 amended: a record that cannot be parsed aborts the migration with a
surfaced error, and the persisted version stays strictly below the failed
phase's checkpoint — at 6 when the data migrator fails (the schema-only
upgrade to version 6 has already committed, so a store that started below 6
does not remain at its original version), and at 7 when the fixup pass
fails. -/
theorem migration_decode_error_aborts :
    (∀ (s : IndexeddbSerializer) (db0 db6 : Database) (tbl : List (String × JsValue))
        (k : String) (v : JsValue) (e0 : String),
      db0.version < 7 →
      migrate_schema_up_to_v6 db0 = .ok db6 →
      db6.getRecords old_keys.INBOUND_GROUP_SESSIONS_V1 = some tbl →
      tableGet tbl k = some v →
      decode_legacy_value s v = .error e0 →
      isError (open_and_upgrade_db s (some db0)) = true ∧
      (errorState (open_and_upgrade_db s (some db0))).map Database.version = some 6) ∧
    (∀ (s : IndexeddbSerializer) (db0 : Database) (tbl : List (String × JsValue))
        (k : String) (v : JsValue) (e0 : String),
      db0.version = 7 →
      db0.getRecords keys.INBOUND_GROUP_SESSIONS_V2 = some tbl →
      tableGet tbl k = some v →
      decode_v8_value s v = .error e0 →
      isError (open_and_upgrade_db s (some db0)) = true ∧
      (errorState (open_and_upgrade_db s (some db0))).map Database.version = some 7) := by
  constructor
  · intro s db0 db6 tbl k v e0 h0 h6 hgr hold herr
    have hperr := prepare_data_for_v7_error_of_decode s db6 tbl k v e0 hgr hold herr
    cases hp : prepare_data_for_v7 s db6 with
    | ok d =>
      rw [hp] at hperr
      simp only [isError] at hperr
      cases hperr
    | error e =>
      simp only [open_and_upgrade_db, idb_open]
      rw [if_pos h0]
      simp only [h6, hp]
      refine ⟨rfl, ?_⟩
      simp only [errorState, Option.map]
      rw [migrate_schema_up_to_v6_version db0 db6 h0 h6]
  · intro s db0 tbl k v e0 h7 hgr hold herr
    have hperr := prepare_data_for_v8_error_of_decode s db0 tbl k v e0 hgr hold herr
    cases hp : prepare_data_for_v8 s db0 with
    | ok d =>
      rw [hp] at hperr
      simp only [isError] at hperr
      cases hperr
    | error e =>
      simp only [open_and_upgrade_db, idb_open]
      rw [if_neg (by omega : ¬ db0.version < 7)]
      simp only [open_and_upgrade_db_v8_phase]
      rw [if_pos (by omega : db0.version < 8)]
      simp only [hp]
      refine ⟨rfl, ?_⟩
      simp only [errorState, Option.map, h7]

/-- A realistic version-5 catalog (the result of schema steps 1 through 5)
whose legacy inbound-session store holds one undecodable record. -/
def demo_v5_db_bad : Database :=
  match (migrate_stores_to_v1 { version := 5, stores := [] } >>= migrate_stores_to_v2 >>=
      migrate_stores_to_v3 >>= migrate_stores_to_v4 >>= migrate_stores_to_v5 :
      Except String Database) with
  | .error _ => { version := 0, stores := [] }
  | .ok d =>
    d.setRecords old_keys.INBOUND_GROUP_SESSIONS_V1 [("kbad", JsValue.legacyBlob none)]

/-- C5 counterexample: starting from a version-5 store holding an undecodable
record, the migration aborts, but the persisted version is 6 — not the prior
version 5 the claim requires. -/
theorem migration_decode_error_version_counterexample :
    demo_v5_db_bad.version = 5 ∧
    isError (open_and_upgrade_db demo_serializer (some demo_v5_db_bad)) = true ∧
    (errorState (open_and_upgrade_db demo_serializer (some demo_v5_db_bad))).map
      Database.version = some 6 := by
  refine ⟨rfl, rfl, rfl⟩

/-- The state after the successful v6 schema phase on the bad store. -/
def demo_v6_db_bad : Database :=
  match migrate_schema_up_to_v6 demo_v5_db_bad with
  | .ok d => d
  | .error _ => { version := 0, stores := [] }

/-- C5 amended witness at the concrete bad store. -/
theorem migration_decode_error_aborts_witness :
    isError (open_and_upgrade_db demo_serializer (some demo_v5_db_bad)) = true ∧
    (errorState (open_and_upgrade_db demo_serializer (some demo_v5_db_bad))).map
      Database.version = some 6 :=
  migration_decode_error_aborts.1 demo_serializer demo_v5_db_bad demo_v6_db_bad
    [("kbad", JsValue.legacyBlob none)] "kbad" (JsValue.legacyBlob none) "DecodeError"
    (by decide) (by rfl) (by rfl) (by rfl) (by rfl)

/-! ## C7: the version-5 schema step -/

/-- The gossip-requests store as it stands after its first index is added. -/
def gossip_store_unsent_only : ObjectStore :=
  { records := []
    indexes := [{ name := keys.GOSSIP_REQUESTS_UNSENT_INDEX, keyPath := "unsent"
                  unique := false }] }

/-- The gossip-requests store with both of its secondary indexes. -/
def gossip_store_full : ObjectStore :=
  { records := []
    indexes := [{ name := keys.GOSSIP_REQUESTS_UNSENT_INDEX, keyPath := "unsent"
                  unique := false },
                { name := keys.GOSSIP_REQUESTS_BY_INFO_INDEX, keyPath := "info"
                  unique := true }] }

/-- C7: with the gossip store absent and all three superseded request stores
present, the v5 step creates the gossip-requests store with exactly a
non-unique index on "unsent" and a unique index on "info", and deletes all
three superseded stores. -/
theorem migrate_stores_to_v5_spec (db : Database) (s1 s2 s3 : ObjectStore)
    (hg : tableGet db.stores keys.GOSSIP_REQUESTS = none)
    (h1 : tableGet db.stores "outgoing_secret_requests" = some s1)
    (h2 : tableGet db.stores "unsent_secret_requests" = some s2)
    (h3 : tableGet db.stores "secret_requests_by_info" = some s3) :
    ∃ db2, migrate_stores_to_v5 db = .ok db2 ∧
      tableGet db2.stores keys.GOSSIP_REQUESTS = some gossip_store_full ∧
      tableGet db2.stores "outgoing_secret_requests" = none ∧
      tableGet db2.stores "unsent_secret_requests" = none ∧
      tableGet db2.stores "secret_requests_by_info" = none := by
  have nGo : keys.GOSSIP_REQUESTS ≠ "outgoing_secret_requests" := by decide
  have nGu : keys.GOSSIP_REQUESTS ≠ "unsent_secret_requests" := by decide
  have nGi : keys.GOSSIP_REQUESTS ≠ "secret_requests_by_info" := by decide
  have nou : ("outgoing_secret_requests" : String) ≠ "unsent_secret_requests" := by decide
  have noi : ("outgoing_secret_requests" : String) ≠ "secret_requests_by_info" := by decide
  have nui : ("unsent_secret_requests" : String) ≠ "secret_requests_by_info" := by decide
  obtain ⟨dbA, eA, gA, oA, uA, iA⟩ :
      ∃ d, Database.createObjectStore db keys.GOSSIP_REQUESTS = .ok d ∧
        tableGet d.stores keys.GOSSIP_REQUESTS =
          some { records := [], indexes := [] } ∧
        tableGet d.stores "outgoing_secret_requests" = some s1 ∧
        tableGet d.stores "unsent_secret_requests" = some s2 ∧
        tableGet d.stores "secret_requests_by_info" = some s3 := by
    refine ⟨{ db with stores := db.stores ++
        [(keys.GOSSIP_REQUESTS, { records := [], indexes := [] })] }, ?_, ?_, ?_, ?_, ?_⟩
    · simp only [Database.createObjectStore, hg]
    · simp only [tableGet_append, hg]
      simp [tableGet]
    · simp only [tableGet_append, h1]
    · simp only [tableGet_append, h2]
    · simp only [tableGet_append, h3]
  obtain ⟨dbB, eB, gB, oB, uB, iB⟩ :
      ∃ d, Database.createIndex dbA keys.GOSSIP_REQUESTS
          keys.GOSSIP_REQUESTS_UNSENT_INDEX "unsent" false = .ok d ∧
        tableGet d.stores keys.GOSSIP_REQUESTS = some gossip_store_unsent_only ∧
        tableGet d.stores "outgoing_secret_requests" = some s1 ∧
        tableGet d.stores "unsent_secret_requests" = some s2 ∧
        tableGet d.stores "secret_requests_by_info" = some s3 := by
    refine ⟨{ dbA with stores := tablePut dbA.stores keys.GOSSIP_REQUESTS gossip_store_unsent_only },
      ?_, ?_, ?_, ?_, ?_⟩
    · simp [Database.createIndex, gA, gossip_store_unsent_only]
    · simp only [tableGet_put]
      simp
    · simp only [tableGet_put]
      rw [if_neg (fun hh => nGo hh.symm)]
      exact oA
    · simp only [tableGet_put]
      rw [if_neg (fun hh => nGu hh.symm)]
      exact uA
    · simp only [tableGet_put]
      rw [if_neg (fun hh => nGi hh.symm)]
      exact iA
  obtain ⟨dbC, eC, gC, oC, uC, iC⟩ :
      ∃ d, Database.createIndex dbB keys.GOSSIP_REQUESTS
          keys.GOSSIP_REQUESTS_BY_INFO_INDEX "info" true = .ok d ∧
        tableGet d.stores keys.GOSSIP_REQUESTS = some gossip_store_full ∧
        tableGet d.stores "outgoing_secret_requests" = some s1 ∧
        tableGet d.stores "unsent_secret_requests" = some s2 ∧
        tableGet d.stores "secret_requests_by_info" = some s3 := by
    refine ⟨{ dbB with stores := tablePut dbB.stores keys.GOSSIP_REQUESTS gossip_store_full },
      ?_, ?_, ?_, ?_, ?_⟩
    · simp [Database.createIndex, gB, gossip_store_full, gossip_store_unsent_only,
        keys.GOSSIP_REQUESTS_UNSENT_INDEX, keys.GOSSIP_REQUESTS_BY_INFO_INDEX]
    · simp only [tableGet_put]
      simp
    · simp only [tableGet_put]
      rw [if_neg (fun hh => nGo hh.symm)]
      exact oB
    · simp only [tableGet_put]
      rw [if_neg (fun hh => nGu hh.symm)]
      exact uB
    · simp only [tableGet_put]
      rw [if_neg (fun hh => nGi hh.symm)]
      exact iB
  have hany : dbC.stores.any (fun p => p.1 == "outgoing_secret_requests") = true :=
    tableGet_any _ _ _ oC
  obtain ⟨dbD, eD, gD, oD, uD, iD⟩ :
      ∃ d, Database.deleteObjectStore dbC "outgoing_secret_requests" = .ok d ∧
        tableGet d.stores keys.GOSSIP_REQUESTS = some gossip_store_full ∧
        tableGet d.stores "outgoing_secret_requests" = none ∧
        tableGet d.stores "unsent_secret_requests" = some s2 ∧
        tableGet d.stores "secret_requests_by_info" = some s3 := by
    refine ⟨{ dbC with stores := tableDelete dbC.stores "outgoing_secret_requests" },
      ?_, ?_, ?_, ?_, ?_⟩
    · simp only [Database.deleteObjectStore, oC]
    · simp only [tableGet_delete]
      rw [if_neg nGo]
      exact gC
    · simp only [tableGet_delete]
      simp
    · simp only [tableGet_delete]
      rw [if_neg (fun hh => nou hh.symm)]
      exact uC
    · simp only [tableGet_delete]
      rw [if_neg (fun hh => noi hh.symm)]
      exact iC
  obtain ⟨dbE, eE, gE, oE, uE, iE⟩ :
      ∃ d, Database.deleteObjectStore dbD "unsent_secret_requests" = .ok d ∧
        tableGet d.stores keys.GOSSIP_REQUESTS = some gossip_store_full ∧
        tableGet d.stores "outgoing_secret_requests" = none ∧
        tableGet d.stores "unsent_secret_requests" = none ∧
        tableGet d.stores "secret_requests_by_info" = some s3 := by
    refine ⟨{ dbD with stores := tableDelete dbD.stores "unsent_secret_requests" },
      ?_, ?_, ?_, ?_, ?_⟩
    · simp only [Database.deleteObjectStore, uD]
    · simp only [tableGet_delete]
      rw [if_neg nGu]
      exact gD
    · simp only [tableGet_delete]
      rw [if_neg nou]
      exact oD
    · simp only [tableGet_delete]
      simp
    · simp only [tableGet_delete]
      rw [if_neg (fun hh => nui hh.symm)]
      exact iD
  obtain ⟨dbF, eF, gF, oF, uF, iF⟩ :
      ∃ d, Database.deleteObjectStore dbE "secret_requests_by_info" = .ok d ∧
        tableGet d.stores keys.GOSSIP_REQUESTS = some gossip_store_full ∧
        tableGet d.stores "outgoing_secret_requests" = none ∧
        tableGet d.stores "unsent_secret_requests" = none ∧
        tableGet d.stores "secret_requests_by_info" = none := by
    refine ⟨{ dbE with stores := tableDelete dbE.stores "secret_requests_by_info" },
      ?_, ?_, ?_, ?_, ?_⟩
    · simp only [Database.deleteObjectStore, iE]
    · simp only [tableGet_delete]
      rw [if_neg nGi]
      exact gE
    · simp only [tableGet_delete]
      rw [if_neg noi]
      exact oE
    · simp only [tableGet_delete]
      rw [if_neg nui]
      exact uE
    · simp only [tableGet_delete]
      simp
  refine ⟨dbF, ?_, gF, oF, uF, iF⟩
  simp only [migrate_stores_to_v5, Bind.bind]
  rw [eA]
  simp only [Except.bind]
  rw [eB]
  simp only [Except.bind]
  rw [eC]
  simp only [Except.bind]
  rw [if_pos hany]
  rw [eD]
  simp only [Except.bind]
  rw [eE]
  simp only [Except.bind]
  exact eF

/-- C7 witness input: a version-4-shaped catalog holding the three superseded
request stores. -/
def demo_pre_v5_db : Database :=
  { version := 4
    stores := [("outgoing_secret_requests", { records := [], indexes := [] }),
               ("unsent_secret_requests", { records := [], indexes := [] }),
               ("secret_requests_by_info", { records := [], indexes := [] })] }

/-- C7 witness: the v5 step on the concrete catalog. -/
theorem migrate_stores_to_v5_spec_witness :
    ∃ db2, migrate_stores_to_v5 demo_pre_v5_db = .ok db2 ∧
      tableGet db2.stores keys.GOSSIP_REQUESTS = some gossip_store_full ∧
      tableGet db2.stores "outgoing_secret_requests" = none ∧
      tableGet db2.stores "unsent_secret_requests" = none ∧
      tableGet db2.stores "secret_requests_by_info" = none :=
  migrate_stores_to_v5_spec demo_pre_v5_db
    { records := [], indexes := [] } { records := [], indexes := [] }
    { records := [], indexes := [] }
    (by rfl) (by rfl) (by rfl) (by rfl)

/-! ## C8: the seeded v5-to-v8 end-to-end scenario -/

/-- The new-format inbound-session store as created by `migrate_stores_to_v6`. -/
def inbound_v2_fresh_store : ObjectStore :=
  { records := []
    indexes := [{ name := keys.INBOUND_GROUP_SESSIONS_BACKUP_INDEX
                  keyPath := "needs_backup", unique := false }] }

theorem migrate_schema_up_to_v6_on_v5 (db5 : Database) (st : ObjectStore)
    (hver : db5.version = 5)
    (hv2 : tableGet db5.stores keys.INBOUND_GROUP_SESSIONS_V2 = none)
    (hv1 : tableGet db5.stores old_keys.INBOUND_GROUP_SESSIONS_V1 = some st) :
    ∃ db6, migrate_schema_up_to_v6 db5 = .ok db6 ∧ db6.version = 6 ∧
      tableGet db6.stores old_keys.INBOUND_GROUP_SESSIONS_V1 = some st ∧
      tableGet db6.stores keys.INBOUND_GROUP_SESSIONS_V2 = some inbound_v2_fresh_store := by
  have hne : db5.stores.isEmpty = false := tableGet_isEmpty_false _ _ _ hv1
  have hv1v2 : old_keys.INBOUND_GROUP_SESSIONS_V1 ≠ keys.INBOUND_GROUP_SESSIONS_V2 := by
    decide
  obtain ⟨dbc, hcb, hc1, hc2⟩ :
      ∃ d, upgrade_v6_callback 5 db5 = .ok d ∧
        tableGet d.stores old_keys.INBOUND_GROUP_SESSIONS_V1 = some st ∧
        tableGet d.stores keys.INBOUND_GROUP_SESSIONS_V2 = some inbound_v2_fresh_store := by
    refine ⟨{ db5 with
                stores := tablePut
                            (db5.stores ++
                              [(keys.INBOUND_GROUP_SESSIONS_V2,
                                { records := [], indexes := [] })])
                            keys.INBOUND_GROUP_SESSIONS_V2 inbound_v2_fresh_store },
      ?_, ?_, ?_⟩
    · simp [upgrade_v6_callback, apply_schema_step, hne, migrate_stores_to_v6,
        Database.createObjectStore, Database.createIndex, hv2, tableGet_append,
        inbound_v2_fresh_store, Bind.bind, Except.bind, tableGet]
    · simp only [tableGet_put]
      rw [if_neg hv1v2]
      simp only [tableGet_append, hv1]
    · simp only [tableGet_put]
      simp
  refine ⟨{ version := 6, stores := dbc.stores }, ?_, rfl, hc1, hc2⟩
  unfold migrate_schema_up_to_v6 idb_open_u32
  rw [hver]
  rw [if_neg (by omega : ¬ 6 < 5), if_pos (by omega : 5 < 6)]
  simp only [hcb]

theorem migrate_schema_for_v7_on_v6 (db : Database) (st : ObjectStore)
    (hver : db.version = 6)
    (hv1 : tableGet db.stores old_keys.INBOUND_GROUP_SESSIONS_V1 = some st) :
    migrate_schema_for_v7 db =
      .ok { version := 7, stores := tableDelete db.stores old_keys.INBOUND_GROUP_SESSIONS_V1 } := by
  unfold migrate_schema_for_v7 idb_open_u32
  rw [hver]
  rw [if_neg (by omega : ¬ 7 < 6), if_pos (by omega : 6 < 7)]
  simp [migrate_stores_to_v7, Database.deleteObjectStore, hv1]

theorem prepare_data_for_v7_on_two (s : IndexeddbSerializer) (db6 : Database)
    (k1 k2 : String) (p1 p2 : PickledInboundGroupSession) (idxs idxs2 : List Index)
    (hv1 : tableGet db6.stores old_keys.INBOUND_GROUP_SESSIONS_V1 =
      some { records := [(k1, s.serialize_value p1), (k2, s.serialize_value p2)]
             indexes := idxs })
    (hv2 : tableGet db6.stores keys.INBOUND_GROUP_SESSIONS_V2 =
      some { records := [], indexes := idxs2 })
    (hkk : k1 ≠ k2) :
    ∃ db7, prepare_data_for_v7 s db6 = .ok db7 ∧ db7.version = db6.version ∧
      tableGet db7.stores old_keys.INBOUND_GROUP_SESSIONS_V1 =
        some { records := [], indexes := idxs } ∧
      tableGet db7.stores keys.INBOUND_GROUP_SESSIONS_V2 = some
        { records := [(k1, JsValue.v2obj { pickled_session := s.serialize_value_as_bytes p1
                                           needs_backup := !p1.backed_up }),
                      (k2, JsValue.v2obj { pickled_session := s.serialize_value_as_bytes p2
                                           needs_backup := !p2.backed_up })]
          indexes := idxs2 } := by
  have hv1v2 : old_keys.INBOUND_GROUP_SESSIONS_V1 ≠ keys.INBOUND_GROUP_SESSIONS_V2 := by
    decide
  have hloop : prepare_data_for_v7_records s [k1, k2]
      [(k1, s.serialize_value p1), (k2, s.serialize_value p2)] [] =
      .ok ([], [(k1, JsValue.v2obj { pickled_session := s.serialize_value_as_bytes p1
                                     needs_backup := !p1.backed_up }),
                (k2, JsValue.v2obj { pickled_session := s.serialize_value_as_bytes p2
                                     needs_backup := !p2.backed_up })]) := by
    simp [prepare_data_for_v7_records, prepare_data_for_v7_record, tableGet, tableDelete,
      tableAdd, s.round_trip_value, InboundGroupSession.from_pickle,
      InboundGroupSession.pickle, serdeToValue, hkk, Ne.symm hkk]
  refine ⟨{ db6 with
              stores := tablePut
                          (tablePut db6.stores old_keys.INBOUND_GROUP_SESSIONS_V1
                            { records := [], indexes := idxs })
                          keys.INBOUND_GROUP_SESSIONS_V2
                          { records :=
                              [(k1, JsValue.v2obj
                                  { pickled_session := s.serialize_value_as_bytes p1
                                    needs_backup := !p1.backed_up }),
                               (k2, JsValue.v2obj
                                  { pickled_session := s.serialize_value_as_bytes p2
                                    needs_backup := !p2.backed_up })]
                            indexes := idxs2 } },
    ?_, rfl, ?_, ?_⟩
  · unfold prepare_data_for_v7
    simp only [Database.getRecords, hv1, hv2, Option.map, List.map]
    rw [hloop]
    simp only [Database.setRecords, hv1, tableGet_put]
    rw [if_neg (fun hh => hv1v2 hh.symm)]
    simp only [hv2]
  · rw [tableGet_put, if_neg hv1v2, tableGet_put, if_pos rfl]
  · rw [tableGet_put, if_pos rfl]

theorem prepare_data_for_v8_records_two (s : IndexeddbSerializer)
    (k1 k2 n1 n2 : String) (o1 o2 : InboundGroupSessionIndexedDbObject)
    (p1 p2 : PickledInboundGroupSession)
    (hd1 : s.deserialize_value_from_bytes o1.pickled_session = .ok p1)
    (hd2 : s.deserialize_value_from_bytes o2.pickled_session = .ok p2)
    (he1 : s.encode_key keys.INBOUND_GROUP_SESSIONS_V2 (p1.room_id, p1.session_id) = n1)
    (he2 : s.encode_key keys.INBOUND_GROUP_SESSIONS_V2 (p2.room_id, p2.session_id) = n2)
    (hkk : k1 ≠ k2) (hnn : n1 ≠ n2) (hn1k2 : n1 ≠ k2) (hn2k1 : n2 ≠ k1) :
    ∃ t2, prepare_data_for_v8_records s [k1, k2]
        [(k1, JsValue.v2obj o1), (k2, JsValue.v2obj o2)] = .ok t2 ∧
      tableGet t2 n1 = some (JsValue.v2obj o1) ∧
      tableGet t2 n2 = some (JsValue.v2obj o2) := by
  by_cases hc1 : n1 = k1 <;> by_cases hc2 : n2 = k2
  · refine ⟨[(k1, JsValue.v2obj o1), (k2, JsValue.v2obj o2)], ?_, ?_, ?_⟩
    · simp [prepare_data_for_v8_records, prepare_data_for_v8_record, serdeFromValue,
        serdeToValue, tableGet, hd1, hd2, InboundGroupSession.from_pickle, he1, he2,
        hc1, hc2, hkk, Ne.symm hkk]
    · simp [tableGet, hc1]
    · simp [tableGet, hc2, hkk]
  · refine ⟨[(k1, JsValue.v2obj o1), (n2, JsValue.v2obj o2)], ?_, ?_, ?_⟩
    · simp [prepare_data_for_v8_records, prepare_data_for_v8_record, serdeFromValue,
        serdeToValue, tableGet, tableDelete, tableAdd, hd1, hd2,
        InboundGroupSession.from_pickle, he1, he2, hc1, hc2, hkk, Ne.symm hkk,
        hn2k1, Ne.symm hn2k1]
    · simp [tableGet, hc1]
    · simp [tableGet, Ne.symm hn2k1, hn2k1]
  · refine ⟨[(k2, JsValue.v2obj o2), (n1, JsValue.v2obj o1)], ?_, ?_, ?_⟩
    · simp [prepare_data_for_v8_records, prepare_data_for_v8_record, serdeFromValue,
        serdeToValue, tableGet, tableDelete, tableAdd, hd1, hd2,
        InboundGroupSession.from_pickle, he1, he2, hc1, hc2, hkk, Ne.symm hkk,
        hn1k2, Ne.symm hn1k2]
    · simp [tableGet, Ne.symm hn1k2, hn1k2]
    · simp [tableGet, hc2]
  · refine ⟨[(n1, JsValue.v2obj o1), (n2, JsValue.v2obj o2)], ?_, ?_, ?_⟩
    · simp [prepare_data_for_v8_records, prepare_data_for_v8_record, serdeFromValue,
        serdeToValue, tableGet, tableDelete, tableAdd, hd1, hd2,
        InboundGroupSession.from_pickle, he1, he2, hc1, hc2, hkk, Ne.symm hkk,
        hn1k2, Ne.symm hn1k2, hn2k1, Ne.symm hn2k1, hnn]
    · simp [tableGet]
    · simp [tableGet, Ne.symm hnn, hnn]

/-- C8: starting from a version-5 store seeded with two inbound-session
records under the legacy key shape — one backed up, one not — a full
open-with-upgrade succeeds at version 8, both records are retrievable by
their (room id, session id) logical key with the backed-up flag preserved,
and the legacy table no longer exists.  The key-distinctness hypotheses are
the codec key-uniqueness guarantee of the spec. -/
theorem open_and_upgrade_db_v5_scenario (s : IndexeddbSerializer) (db5 : Database)
    (room sid1 sid2 : String) (idxs : List Index) (k1 k2 n1 n2 : String)
    (hk1 : k1 = s.encode_key old_keys.INBOUND_GROUP_SESSIONS_V1 (room, sid1))
    (hk2 : k2 = s.encode_key old_keys.INBOUND_GROUP_SESSIONS_V1 (room, sid2))
    (hn1 : n1 = s.encode_key keys.INBOUND_GROUP_SESSIONS_V2 (room, sid1))
    (hn2 : n2 = s.encode_key keys.INBOUND_GROUP_SESSIONS_V2 (room, sid2))
    (hver : db5.version = 5)
    (hv2absent : tableGet db5.stores keys.INBOUND_GROUP_SESSIONS_V2 = none)
    (hv1 : tableGet db5.stores old_keys.INBOUND_GROUP_SESSIONS_V1 = some
      { records := [(k1, s.serialize_value { room_id := room, session_id := sid1
                                             backed_up := true }),
                    (k2, s.serialize_value { room_id := room, session_id := sid2
                                             backed_up := false })]
        indexes := idxs })
    (hkk : k1 ≠ k2) (hnn : n1 ≠ n2) (hn1k2 : n1 ≠ k2) (hn2k1 : n2 ≠ k1) :
    ∃ db8, open_and_upgrade_db s (some db5) = .ok db8 ∧
      db8.version = 8 ∧
      tableGet db8.stores old_keys.INBOUND_GROUP_SESSIONS_V1 = none ∧
      get_inbound_group_session s db8 room sid1 =
        .ok (some { room_id := room, session_id := sid1, backed_up := true }) ∧
      get_inbound_group_session s db8 room sid2 =
        .ok (some { room_id := room, session_id := sid2, backed_up := false }) := by
  have hv1v2 : old_keys.INBOUND_GROUP_SESSIONS_V1 ≠ keys.INBOUND_GROUP_SESSIONS_V2 := by
    decide
  obtain ⟨db6, e6, hver6, h6v1, h6v2⟩ :=
    migrate_schema_up_to_v6_on_v5 db5 _ hver hv2absent hv1
  obtain ⟨db7x, e7, hver7x, h7v1, h7v2⟩ :=
    prepare_data_for_v7_on_two s db6 k1 k2
      { room_id := room, session_id := sid1, backed_up := true }
      { room_id := room, session_id := sid2, backed_up := false }
      idxs inbound_v2_fresh_store.indexes h6v1 h6v2 hkk
  have e7s : migrate_schema_for_v7 db7x =
      .ok { version := 7, stores := tableDelete db7x.stores old_keys.INBOUND_GROUP_SESSIONS_V1 } :=
    migrate_schema_for_v7_on_v6 db7x _ (by rw [hver7x, hver6]) h7v1
  obtain ⟨t2, el, g1, g2⟩ :=
    prepare_data_for_v8_records_two s k1 k2 n1 n2
      { pickled_session := s.serialize_value_as_bytes
          { room_id := room, session_id := sid1, backed_up := true }
        needs_backup := false }
      { pickled_session := s.serialize_value_as_bytes
          { room_id := room, session_id := sid2, backed_up := false }
        needs_backup := true }
      { room_id := room, session_id := sid1, backed_up := true }
      { room_id := room, session_id := sid2, backed_up := false }
      (s.round_trip_bytes _) (s.round_trip_bytes _) hn1.symm hn2.symm hkk hnn hn1k2 hn2k1
  have h7del : tableGet (tableDelete db7x.stores old_keys.INBOUND_GROUP_SESSIONS_V1)
      keys.INBOUND_GROUP_SESSIONS_V2 = some
      { records := [(k1, JsValue.v2obj
            { pickled_session := s.serialize_value_as_bytes
                { room_id := room, session_id := sid1, backed_up := true }
              needs_backup := false }),
          (k2, JsValue.v2obj
            { pickled_session := s.serialize_value_as_bytes
                { room_id := room, session_id := sid2, backed_up := false }
              needs_backup := true })]
        indexes := inbound_v2_fresh_store.indexes } := by
    rw [tableGet_delete, if_neg (fun hh => hv1v2 hh.symm)]
    rw [h7v2]
    rfl
  have e8 : prepare_data_for_v8 s
      { version := 7, stores := tableDelete db7x.stores old_keys.INBOUND_GROUP_SESSIONS_V1 } =
      .ok (Database.setRecords
        { version := 7, stores := tableDelete db7x.stores old_keys.INBOUND_GROUP_SESSIONS_V1 }
        keys.INBOUND_GROUP_SESSIONS_V2 t2) := by
    unfold prepare_data_for_v8
    simp only [Database.getRecords, h7del, Option.map, List.map]
    rw [el]
  have hstores8 : (Database.setRecords
      { version := 7, stores := tableDelete db7x.stores old_keys.INBOUND_GROUP_SESSIONS_V1 }
      keys.INBOUND_GROUP_SESSIONS_V2 t2).stores =
      tablePut (tableDelete db7x.stores old_keys.INBOUND_GROUP_SESSIONS_V1)
        keys.INBOUND_GROUP_SESSIONS_V2
        { records := t2, indexes := inbound_v2_fresh_store.indexes } := by
    simp only [Database.setRecords, h7del]
  refine ⟨{ version := 8,
            stores := tablePut (tableDelete db7x.stores old_keys.INBOUND_GROUP_SESSIONS_V1)
                        keys.INBOUND_GROUP_SESSIONS_V2
                        { records := t2, indexes := inbound_v2_fresh_store.indexes } },
    ?_, rfl, ?_, ?_, ?_⟩
  · unfold open_and_upgrade_db
    simp only [idb_open]
    rw [hver]
    rw [if_pos (by omega : (5 : Nat) < 7)]
    simp only [e6, e7, e7s]
    unfold open_and_upgrade_db_v8_phase
    rw [if_pos (by omega : (5 : Nat) < 8)]
    simp only [e8]
    have hv8 : (Database.setRecords
        { version := 7, stores := tableDelete db7x.stores old_keys.INBOUND_GROUP_SESSIONS_V1 }
        keys.INBOUND_GROUP_SESSIONS_V2 t2).version = 7 := by
      simp only [Database.setRecords, h7del]
    unfold migrate_schema_for_v8 idb_open_u32
    rw [hv8]
    rw [if_neg (by omega : ¬ 8 < 7), if_pos (by omega : 7 < 8)]
    simp only [hstores8]
    rw [if_neg (by omega : ¬ 8 < 8), if_neg (by omega : ¬ 8 < 8)]
  · rw [tableGet_put, if_neg hv1v2, tableGet_delete, if_pos rfl]
  · have hS2 : tableGet (tablePut
        (tableDelete db7x.stores old_keys.INBOUND_GROUP_SESSIONS_V1)
        keys.INBOUND_GROUP_SESSIONS_V2
        { records := t2, indexes := inbound_v2_fresh_store.indexes })
        keys.INBOUND_GROUP_SESSIONS_V2 =
        some { records := t2, indexes := inbound_v2_fresh_store.indexes } := by
      rw [tableGet_put, if_pos rfl]
    unfold get_inbound_group_session
    simp only [Database.getRecords, hS2, Option.map]
    rw [← hn1]
    simp only [g1, serdeFromValue, s.round_trip_bytes, InboundGroupSession.from_pickle]
  · have hS2 : tableGet (tablePut
        (tableDelete db7x.stores old_keys.INBOUND_GROUP_SESSIONS_V1)
        keys.INBOUND_GROUP_SESSIONS_V2
        { records := t2, indexes := inbound_v2_fresh_store.indexes })
        keys.INBOUND_GROUP_SESSIONS_V2 =
        some { records := t2, indexes := inbound_v2_fresh_store.indexes } := by
      rw [tableGet_put, if_pos rfl]
    unfold get_inbound_group_session
    simp only [Database.getRecords, hS2, Option.map]
    rw [← hn2]
    simp only [g2, serdeFromValue, s.round_trip_bytes, InboundGroupSession.from_pickle]

/-- A concrete version-5 store seeded with the two scenario records under the
legacy key shape. -/
def demo_v5_seeded : Database :=
  { version := 5
    stores := [(old_keys.INBOUND_GROUP_SESSIONS_V1,
      { records := [("inbound_group_sessions:!r:sa",
                      JsValue.legacyBlob (some { room_id := "!r", session_id := "sa"
                                                 backed_up := true })),
                    ("inbound_group_sessions:!r:sb",
                      JsValue.legacyBlob (some { room_id := "!r", session_id := "sb"
                                                 backed_up := false }))]
        indexes := [] })] }

/-- C8 witness: the scenario run on the concrete seeded store. -/
theorem open_and_upgrade_db_v5_scenario_witness :
    ∃ db8, open_and_upgrade_db demo_serializer (some demo_v5_seeded) = .ok db8 ∧
      db8.version = 8 ∧
      tableGet db8.stores old_keys.INBOUND_GROUP_SESSIONS_V1 = none ∧
      get_inbound_group_session demo_serializer db8 "!r" "sa" =
        .ok (some { room_id := "!r", session_id := "sa", backed_up := true }) ∧
      get_inbound_group_session demo_serializer db8 "!r" "sb" =
        .ok (some { room_id := "!r", session_id := "sb", backed_up := false }) :=
  open_and_upgrade_db_v5_scenario demo_serializer demo_v5_seeded "!r" "sa" "sb" []
    "inbound_group_sessions:!r:sa" "inbound_group_sessions:!r:sb"
    "inbound_group_sessions2:!r:sa" "inbound_group_sessions2:!r:sb"
    (by rfl) (by rfl) (by rfl) (by rfl) (by rfl) (by rfl) (by rfl)
    (by decide) (by decide) (by decide) (by decide)
